import Mathlib

/-!
Shallow embedding of the execution engine of the homer network-configuration
orchestrator (hierarchical config resolver, device catalog queries, the
per-device retry loop, the two transport session variants, the diff approval
store and the interactive approval prompt), together with theorems settling
the specification claims about it.

Python dictionaries are embedded as insertion-ordered association lists
(`Homer.Dict`): `dictSet` is `d[k] = v` (replacing in place when the key is
present, appending the fresh pair at the end otherwise) and `pyUpdate a b`
is `{**a, **b}`.  A dictionary produced by the Python runtime always has
pairwise-distinct keys; where a proof needs that fact it is taken as an
explicit `DictWF` hypothesis.
-/

namespace Homer

/-- Values stored in the configuration dictionaries: strings, numbers and
nested dictionaries (the shapes exercised by `config.py`, which also injects
the device metadata dictionary and the hostname string). -/
inductive Value where
  | str : String → Value
  | num : Int → Value
  | dict : List (String × Value) → Value

/-- An insertion-ordered Python dictionary with `String` keys. -/
abbrev Dict := List (String × Value)

/-- Membership test `k in d` of a Python dictionary. -/
def containsKey (d : Dict) (k : String) : Bool := d.any (fun p => p.1 == k)

/-- Lookup `d.get(k)` of a Python dictionary. -/
def pyGet (d : Dict) (k : String) : Option Value := (d.find? (fun p => p.1 == k)).map (·.2)

/-- Assignment `d[k] = v`: replace the value in place when the key exists,
append the new pair at the end otherwise. -/
def dictSet (d : Dict) (k : String) (v : Value) : Dict :=
  if containsKey d k then d.map (fun p => if p.1 == k then (k, v) else p) else d ++ [(k, v)]

/-- The Python merge `{**a, **b}`: start from `a` and assign every pair of
`b` in order. -/
def pyUpdate (a b : Dict) : Dict := b.foldl (fun acc p => dictSet acc p.1 p.2) a

/-- Well-formedness of an embedded dictionary: its keys are pairwise
distinct, as is the case for every dictionary built by the Python runtime. -/
abbrev DictWF (d : Dict) : Prop := (d.map Prod.fst).Nodup

theorem containsKey_cons (p : String × Value) (t : Dict) (k : String) :
    containsKey (p :: t) k = ((p.1 == k) || containsKey t k) := by
  simp [containsKey]

theorem pyGet_cons (p : String × Value) (t : Dict) (k : String) :
    pyGet (p :: t) k = if p.1 = k then some p.2 else pyGet t k := by
  unfold pyGet
  by_cases h : p.1 = k
  · rw [List.find?_cons_of_pos _ (by simp [h]), if_pos h]
    rfl
  · rw [List.find?_cons_of_neg _ (by simp [h]), if_neg h]

theorem containsKey_iff (d : Dict) (k : String) :
    containsKey d k = true ↔ ∃ v, (k, v) ∈ d := by
  unfold containsKey
  rw [List.any_eq_true]
  constructor
  · rintro ⟨⟨k', v⟩, hmem, hk⟩
    simp only [beq_iff_eq] at hk
    exact ⟨v, by simpa [hk] using hmem⟩
  · rintro ⟨v, hmem⟩
    exact ⟨(k, v), hmem, by simp⟩

/-- Looking up the just-assigned key returns the just-assigned value. -/
theorem pyGet_dictSet_self (d : Dict) (k : String) (v : Value) :
    pyGet (dictSet d k v) k = some v := by
  unfold dictSet
  by_cases h : containsKey d k
  · rw [if_pos h]
    induction d with
    | nil => simp [containsKey] at h
    | cons p t ih =>
      by_cases hp : p.1 = k
      · simp only [List.map_cons, if_pos (show (p.1 == k) = true by simp [hp])]
        rw [pyGet_cons]
        simp
      · have ht : containsKey t k = true := by
          rw [containsKey_cons] at h
          simpa [hp] using h
        simp only [List.map_cons, if_neg (show ¬ (p.1 == k) = true by simp [hp])]
        rw [pyGet_cons, if_neg hp]
        exact ih ht
  · rw [if_neg h]
    induction d with
    | nil => simp [pyGet_cons, pyGet]
    | cons p t ih =>
      rw [containsKey_cons] at h
      have hp : ¬ p.1 = k := by
        intro hk
        simp [hk] at h
      have ht : ¬ containsKey t k = true := by
        intro hk
        simp [hk] at h
      rw [List.cons_append, pyGet_cons, if_neg hp]
      exact ih ht

/-- Equality tests with `==` on strings are symmetric. -/
theorem beq_symm (a b : String) : (a == b) = (b == a) := by
  by_cases h : a = b
  · rw [h]
  · rw [beq_eq_false_iff_ne.mpr h, beq_eq_false_iff_ne.mpr (Ne.symm h)]

/-- Assigning a different key does not change a lookup. -/
theorem pyGet_dictSet_ne (d : Dict) (k k' : String) (v : Value) (h : k' ≠ k) :
    pyGet (dictSet d k v) k' = pyGet d k' := by
  unfold dictSet
  by_cases hc : containsKey d k
  · rw [if_pos hc]
    clear hc
    induction d with
    | nil => simp
    | cons p t ih =>
      by_cases hp : p.1 = k
      · simp only [List.map_cons, if_pos (show (p.1 == k) = true by simp [hp])]
        rw [pyGet_cons, pyGet_cons, if_neg (by simpa using Ne.symm h),
          if_neg (by rw [hp]; exact Ne.symm h)]
        exact ih
      · simp only [List.map_cons, if_neg (show ¬ (p.1 == k) = true by simp [hp])]
        rw [pyGet_cons, pyGet_cons]
        by_cases hq : p.1 = k'
        · rw [if_pos hq, if_pos hq]
        · rw [if_neg hq, if_neg hq]
          exact ih
  · rw [if_neg hc]
    clear hc
    induction d with
    | nil => simp [pyGet_cons, pyGet, Ne.symm h]
    | cons p t ih =>
      rw [List.cons_append, pyGet_cons, pyGet_cons]
      by_cases hq : p.1 = k'
      · rw [if_pos hq, if_pos hq]
      · rw [if_neg hq, if_neg hq]
        exact ih

theorem pyGet_isSome_iff (d : Dict) (k : String) :
    (pyGet d k).isSome = containsKey d k := by
  induction d with
  | nil => rfl
  | cons p t ih =>
    rw [pyGet_cons, containsKey_cons]
    by_cases hp : p.1 = k
    · simp [hp]
    · simp only [if_neg hp, ih]
      simp [hp]

theorem containsKey_dictSet (d : Dict) (k k' : String) (v : Value) :
    containsKey (dictSet d k v) k' = (containsKey d k' || (k' == k)) := by
  by_cases h : k' = k
  · subst h
    rw [← pyGet_isSome_iff, pyGet_dictSet_self]
    simp
  · rw [← pyGet_isSome_iff, pyGet_dictSet_ne d k k' v h, pyGet_isSome_iff,
      beq_eq_false_iff_ne.mpr h, Bool.or_false]

/-- A key absent from `b` is untouched by `{**a, **b}`. -/
theorem pyGet_pyUpdate_of_not_right (a b : Dict) (k : String)
    (h : containsKey b k = false) : pyGet (pyUpdate a b) k = pyGet a k := by
  induction b generalizing a with
  | nil => rfl
  | cons p t ih =>
    rw [containsKey_cons] at h
    have hp : ¬ p.1 = k := by
      intro hk
      simp [hk] at h
    have ht : containsKey t k = false := by
      rcases Bool.or_eq_false_iff.mp h with ⟨-, h2⟩
      exact h2
    unfold pyUpdate at ih ⊢
    simp only [List.foldl_cons]
    rw [ih _ ht]
    exact pyGet_dictSet_ne a p.1 k p.2 (Ne.symm hp)

theorem containsKey_pyUpdate (a b : Dict) (k : String) :
    containsKey (pyUpdate a b) k = (containsKey a k || containsKey b k) := by
  induction b generalizing a with
  | nil => simp [pyUpdate, containsKey]
  | cons p t ih =>
    unfold pyUpdate at ih ⊢
    simp only [List.foldl_cons]
    rw [ih, containsKey_dictSet, containsKey_cons, beq_symm k p.1]
    by_cases hp : p.1 = k <;>
      simp [hp, Bool.or_comm, Bool.or_assoc, Bool.or_left_comm]

/-- When the keys of `b` are pairwise distinct, a key present in `b` wins in
`{**a, **b}` and gets the value it has in `b`. -/
theorem pyGet_pyUpdate_of_right (a b : Dict) (k : String)
    (hwf : (b.map Prod.fst).Nodup) (h : containsKey b k = true) :
    pyGet (pyUpdate a b) k = pyGet b k := by
  induction b generalizing a with
  | nil => simp [containsKey] at h
  | cons p t ih =>
    simp only [List.map_cons, List.nodup_cons] at hwf
    unfold pyUpdate
    simp only [List.foldl_cons]
    by_cases hp : p.1 = k
    · have ht : containsKey t k = false := by
        rw [Bool.eq_false_iff]
        intro hc
        rcases (containsKey_iff t k).mp hc with ⟨v, hv⟩
        exact hwf.1 (hp ▸ (List.mem_map.mpr ⟨(k, v), hv, rfl⟩))
      have hstep := pyGet_pyUpdate_of_not_right (dictSet a p.1 p.2) t k ht
      unfold pyUpdate at hstep
      rw [hstep, hp, pyGet_dictSet_self, pyGet_cons, if_pos hp]
    · have ht : containsKey t k = true := by
        rw [containsKey_cons] at h
        simpa [hp] using h
      have hstep := ih (dictSet a p.1 p.2) hwf.2 ht
      unfold pyUpdate at hstep
      rw [hstep, pyGet_cons, if_neg hp]

/-- Assignments preserve key distinctness. -/
theorem DictWF_dictSet (d : Dict) (k : String) (v : Value) (h : DictWF d) :
    DictWF (dictSet d k v) := by
  unfold dictSet
  by_cases hc : containsKey d k
  · rw [if_pos hc]
    unfold DictWF at h ⊢
    have : (d.map (fun p => if p.1 == k then (k, v) else p)).map Prod.fst = d.map Prod.fst := by
      rw [List.map_map]
      apply List.map_congr_left
      intro ⟨a, b⟩ _
      by_cases ha : a = k <;> simp [ha]
    rw [this]
    exact h
  · rw [if_neg hc]
    unfold DictWF at h ⊢
    rw [List.map_append]
    simp only [List.map_cons, List.map_nil]
    rw [List.nodup_append]
    refine ⟨h, List.nodup_singleton k, ?_⟩
    intro a ha hb
    simp only [List.mem_singleton] at hb
    subst hb
    rcases List.mem_map.mp ha with ⟨⟨a', b'⟩, hmem, hfst⟩
    simp only at hfst
    subst hfst
    exact absurd ((containsKey_iff d a').mpr ⟨b', hmem⟩) (by simpa using hc)

/-- The merge `{**a, **b}` preserves key distinctness of the base. -/
theorem DictWF_pyUpdate (a b : Dict) (h : DictWF a) : DictWF (pyUpdate a b) := by
  induction b generalizing a with
  | nil => exact h
  | cons p t ih =>
    unfold pyUpdate at ih ⊢
    simp only [List.foldl_cons]
    exact ih _ (DictWF_dictSet a p.1 p.2 h)

/-!
Embedding of `config.py` (`HierarchicalConfig`).  The `Device` consumed by
`HierarchicalConfig.get` carries `fqdn`, `metadata`, `config` and `private`
fields (the shape exercised by `test_config.py`); the `private` field is
called `privateConfig` here because `private` is a Lean keyword.  The
`deepcopy` calls of the source are identities in this pure embedding.
-/

/-- The device value consumed by `HierarchicalConfig.get`. -/
structure ConfigDevice where
  fqdn : String
  metadata : Dict
  config : Dict
  privateConfig : Dict

/-- The six configuration documents loaded by `HierarchicalConfig.__init__`
(`common.yaml`, `roles.yaml`, `sites.yaml` on the public and the private
side); a missing file is the empty dictionary. -/
structure HierarchicalConfig where
  public_common : Dict
  public_roles : List (String × Dict)
  public_sites : List (String × Dict)
  private_common : Dict
  private_roles : List (String × Dict)
  private_sites : List (String × Dict)

/-- Lookup `m.get(k, {})` in a dictionary of sub-dictionaries. -/
def lookupSub (m : List (String × Dict)) (k : String) : Dict :=
  ((m.find? (fun p => p.1 == k)).map (·.2)).getD []

/-- Lookup `d.get(k, '')` expecting a string value, as `get` does for the
`role` and `site` metadata entries (they are strings in every catalog). -/
def metaStr (d : Dict) (k : String) : String :=
  match pyGet d k with
  | some (.str s) => s
  | _ => ""

/-- The configuration layers of `HierarchicalConfig.get`, in increasing
precedence on each side: common, role, site, device config and the injected
`metadata`/`hostname` pair on the public side; common, role, site and device
private config on the private side. -/
inductive Layer where
  | common
  | role
  | site
  | deviceCfg
  | injected
  | privateCommon
  | privateRole
  | privateSite
  | privateDevice
deriving DecidableEq

/-- The dictionary each layer contributes for a given device. -/
def HierarchicalConfig.layerDict (hc : HierarchicalConfig) (device : ConfigDevice) :
    Layer → Dict
  | .common => hc.public_common
  | .role => lookupSub hc.public_roles (metaStr device.metadata "role")
  | .site => lookupSub hc.public_sites (metaStr device.metadata "site")
  | .deviceCfg => device.config
  | .injected => [("metadata", Value.dict device.metadata), ("hostname", Value.str device.fqdn)]
  | .privateCommon => hc.private_common
  | .privateRole => lookupSub hc.private_roles (metaStr device.metadata "role")
  | .privateSite => lookupSub hc.private_sites (metaStr device.metadata "site")
  | .privateDevice => device.privateConfig

/-- The fully layered public dictionary of `get`:
`{**common, **roles.get(role, {}), **sites.get(site, {}), **device.config,
**{'metadata': ..., 'hostname': ...}}`. -/
def HierarchicalConfig.publicLayered (hc : HierarchicalConfig) (device : ConfigDevice) : Dict :=
  pyUpdate (pyUpdate (pyUpdate (pyUpdate (hc.layerDict device .common)
    (hc.layerDict device .role)) (hc.layerDict device .site))
    (hc.layerDict device .deviceCfg)) (hc.layerDict device .injected)

/-- The fully layered private dictionary of `get`:
`{**private_common, **private_roles.get(role, {}), **private_sites.get(site, {}),
**device.private}`. -/
def HierarchicalConfig.privateLayered (hc : HierarchicalConfig) (device : ConfigDevice) : Dict :=
  pyUpdate (pyUpdate (pyUpdate (hc.layerDict device .privateCommon)
    (hc.layerDict device .privateRole)) (hc.layerDict device .privateSite))
    (hc.layerDict device .privateDevice)

/-- The keys shared by the layered public and private dictionaries, reported
in the `HomerError` message of `get`. -/
def HierarchicalConfig.collidingKeys (hc : HierarchicalConfig) (device : ConfigDevice) :
    List String :=
  ((hc.publicLayered device).map Prod.fst).filter
    (fun k => containsKey (hc.privateLayered device) k)

/-- `HierarchicalConfig.get`: layer both sides, fail with a `HomerError`
when a top-level key is present in both, merge them otherwise. -/
def HierarchicalConfig.get (hc : HierarchicalConfig) (device : ConfigDevice) :
    Except String Dict :=
  if (hc.publicLayered device).any (fun p => containsKey (hc.privateLayered device) p.1) then
    .error ("Configuration key(s) found in both public and private config: "
      ++ String.intercalate ", " (hc.collidingKeys device))
  else
    .ok (pyUpdate (hc.publicLayered device) (hc.privateLayered device))

/-- C3: `HierarchicalConfig.get` fails with a `ConfigError` exactly when some
top-level key is present in both the fully layered public configuration and
the fully layered private configuration; when the key sets are disjoint it
returns the merged dictionary, so a collision is never silently resolved by
letting one side shadow the other. -/
theorem config_public_private_disjointness (hc : HierarchicalConfig) (device : ConfigDevice) :
    ((∃ k, containsKey (hc.publicLayered device) k = true ∧
        containsKey (hc.privateLayered device) k = true) ↔
      (∃ e, hc.get device = Except.error e)) ∧
    ((∀ k, containsKey (hc.publicLayered device) k = true →
        containsKey (hc.privateLayered device) k = false) →
      hc.get device =
        Except.ok (pyUpdate (hc.publicLayered device) (hc.privateLayered device))) := by
  have hany : (hc.publicLayered device).any
      (fun p => containsKey (hc.privateLayered device) p.1) = true ↔
      ∃ k, containsKey (hc.publicLayered device) k = true ∧
        containsKey (hc.privateLayered device) k = true := by
    rw [List.any_eq_true]
    constructor
    · rintro ⟨⟨k, v⟩, hmem, hk⟩
      exact ⟨k, (containsKey_iff _ _).mpr ⟨v, hmem⟩, hk⟩
    · rintro ⟨k, hpub, hpriv⟩
      rcases (containsKey_iff _ _).mp hpub with ⟨v, hv⟩
      exact ⟨(k, v), hv, hpriv⟩
  constructor
  · constructor
    · intro hcol
      rw [HierarchicalConfig.get, if_pos (hany.mpr hcol)]
      exact ⟨_, rfl⟩
    · rintro ⟨e, he⟩
      rw [HierarchicalConfig.get] at he
      by_cases hb : (hc.publicLayered device).any
          (fun p => containsKey (hc.privateLayered device) p.1) = true
      · exact hany.mp hb
      · rw [if_neg hb] at he
        cases he
  · intro hdisj
    rw [HierarchicalConfig.get, if_neg]
    intro hb
    rcases hany.mp hb with ⟨k, hpub, hpriv⟩
    rw [hdisj k hpub] at hpriv
    cases hpriv

/-- C4: when a top-level key is defined in exactly one configuration layer
(and every layer dictionary has distinct keys, as every Python dictionary
does), a successful `HierarchicalConfig.get` binds that key to the value from
that layer — the precedence chain common < role < site < device < injected
(and likewise on the private side) degenerates to the unique defining layer. -/
theorem config_layering_precedence (hc : HierarchicalConfig) (device : ConfigDevice)
    (layer : Layer) (k : String) (m : Dict)
    (hWF : ∀ other, DictWF (hc.layerDict device other))
    (hdef : containsKey (hc.layerDict device layer) k = true)
    (honly : ∀ other, other ≠ layer → containsKey (hc.layerDict device other) k = false)
    (hok : hc.get device = Except.ok m) :
    pyGet m k = pyGet (hc.layerDict device layer) k := by
  rw [HierarchicalConfig.get] at hok
  by_cases hb : (hc.publicLayered device).any
      (fun p => containsKey (hc.privateLayered device) p.1) = true
  · rw [if_pos hb] at hok
    cases hok
  · rw [if_neg hb] at hok
    have hm : m = pyUpdate (hc.publicLayered device) (hc.privateLayered device) := by
      cases hok
      rfl
    subst hm
    cases layer with
    | common =>
      have hpriv : containsKey (hc.privateLayered device) k = false := by
        rw [HierarchicalConfig.privateLayered, containsKey_pyUpdate, containsKey_pyUpdate,
          containsKey_pyUpdate, honly .privateCommon (by decide),
          honly .privateRole (by decide), honly .privateSite (by decide),
          honly .privateDevice (by decide)]
        simp
      rw [pyGet_pyUpdate_of_not_right _ _ _ hpriv, HierarchicalConfig.publicLayered,
        pyGet_pyUpdate_of_not_right _ _ _ (honly .injected (by decide)),
        pyGet_pyUpdate_of_not_right _ _ _ (honly .deviceCfg (by decide)),
        pyGet_pyUpdate_of_not_right _ _ _ (honly .site (by decide)),
        pyGet_pyUpdate_of_not_right _ _ _ (honly .role (by decide))]
    | role =>
      have hpriv : containsKey (hc.privateLayered device) k = false := by
        rw [HierarchicalConfig.privateLayered, containsKey_pyUpdate, containsKey_pyUpdate,
          containsKey_pyUpdate, honly .privateCommon (by decide),
          honly .privateRole (by decide), honly .privateSite (by decide),
          honly .privateDevice (by decide)]
        simp
      rw [pyGet_pyUpdate_of_not_right _ _ _ hpriv, HierarchicalConfig.publicLayered,
        pyGet_pyUpdate_of_not_right _ _ _ (honly .injected (by decide)),
        pyGet_pyUpdate_of_not_right _ _ _ (honly .deviceCfg (by decide)),
        pyGet_pyUpdate_of_not_right _ _ _ (honly .site (by decide)),
        pyGet_pyUpdate_of_right _ _ _ (hWF .role) hdef]
    | site =>
      have hpriv : containsKey (hc.privateLayered device) k = false := by
        rw [HierarchicalConfig.privateLayered, containsKey_pyUpdate, containsKey_pyUpdate,
          containsKey_pyUpdate, honly .privateCommon (by decide),
          honly .privateRole (by decide), honly .privateSite (by decide),
          honly .privateDevice (by decide)]
        simp
      rw [pyGet_pyUpdate_of_not_right _ _ _ hpriv, HierarchicalConfig.publicLayered,
        pyGet_pyUpdate_of_not_right _ _ _ (honly .injected (by decide)),
        pyGet_pyUpdate_of_not_right _ _ _ (honly .deviceCfg (by decide)),
        pyGet_pyUpdate_of_right _ _ _ (hWF .site) hdef]
    | deviceCfg =>
      have hpriv : containsKey (hc.privateLayered device) k = false := by
        rw [HierarchicalConfig.privateLayered, containsKey_pyUpdate, containsKey_pyUpdate,
          containsKey_pyUpdate, honly .privateCommon (by decide),
          honly .privateRole (by decide), honly .privateSite (by decide),
          honly .privateDevice (by decide)]
        simp
      rw [pyGet_pyUpdate_of_not_right _ _ _ hpriv, HierarchicalConfig.publicLayered,
        pyGet_pyUpdate_of_not_right _ _ _ (honly .injected (by decide)),
        pyGet_pyUpdate_of_right _ _ _ (hWF .deviceCfg) hdef]
    | injected =>
      have hpriv : containsKey (hc.privateLayered device) k = false := by
        rw [HierarchicalConfig.privateLayered, containsKey_pyUpdate, containsKey_pyUpdate,
          containsKey_pyUpdate, honly .privateCommon (by decide),
          honly .privateRole (by decide), honly .privateSite (by decide),
          honly .privateDevice (by decide)]
        simp
      rw [pyGet_pyUpdate_of_not_right _ _ _ hpriv, HierarchicalConfig.publicLayered,
        pyGet_pyUpdate_of_right _ _ _ (hWF .injected) hdef]
    | privateCommon =>
      have hWFpriv : DictWF (hc.privateLayered device) := by
        rw [HierarchicalConfig.privateLayered]
        exact DictWF_pyUpdate _ _ (DictWF_pyUpdate _ _ (DictWF_pyUpdate _ _
          (hWF .privateCommon)))
      have hcont : containsKey (hc.privateLayered device) k = true := by
        rw [HierarchicalConfig.privateLayered, containsKey_pyUpdate, containsKey_pyUpdate,
          containsKey_pyUpdate, hdef]
        simp
      rw [pyGet_pyUpdate_of_right _ _ _ hWFpriv hcont, HierarchicalConfig.privateLayered,
        pyGet_pyUpdate_of_not_right _ _ _ (honly .privateDevice (by decide)),
        pyGet_pyUpdate_of_not_right _ _ _ (honly .privateSite (by decide)),
        pyGet_pyUpdate_of_not_right _ _ _ (honly .privateRole (by decide))]
    | privateRole =>
      have hWFpriv : DictWF (hc.privateLayered device) := by
        rw [HierarchicalConfig.privateLayered]
        exact DictWF_pyUpdate _ _ (DictWF_pyUpdate _ _ (DictWF_pyUpdate _ _
          (hWF .privateCommon)))
      have hcont : containsKey (hc.privateLayered device) k = true := by
        rw [HierarchicalConfig.privateLayered, containsKey_pyUpdate, containsKey_pyUpdate,
          containsKey_pyUpdate, hdef]
        simp
      rw [pyGet_pyUpdate_of_right _ _ _ hWFpriv hcont, HierarchicalConfig.privateLayered,
        pyGet_pyUpdate_of_not_right _ _ _ (honly .privateDevice (by decide)),
        pyGet_pyUpdate_of_not_right _ _ _ (honly .privateSite (by decide)),
        pyGet_pyUpdate_of_right _ _ _ (hWF .privateRole) hdef]
    | privateSite =>
      have hWFpriv : DictWF (hc.privateLayered device) := by
        rw [HierarchicalConfig.privateLayered]
        exact DictWF_pyUpdate _ _ (DictWF_pyUpdate _ _ (DictWF_pyUpdate _ _
          (hWF .privateCommon)))
      have hcont : containsKey (hc.privateLayered device) k = true := by
        rw [HierarchicalConfig.privateLayered, containsKey_pyUpdate, containsKey_pyUpdate,
          containsKey_pyUpdate, hdef]
        simp
      rw [pyGet_pyUpdate_of_right _ _ _ hWFpriv hcont, HierarchicalConfig.privateLayered,
        pyGet_pyUpdate_of_not_right _ _ _ (honly .privateDevice (by decide)),
        pyGet_pyUpdate_of_right _ _ _ (hWF .privateSite) hdef]
    | privateDevice =>
      have hWFpriv : DictWF (hc.privateLayered device) := by
        rw [HierarchicalConfig.privateLayered]
        exact DictWF_pyUpdate _ _ (DictWF_pyUpdate _ _ (DictWF_pyUpdate _ _
          (hWF .privateCommon)))
      have hcont : containsKey (hc.privateLayered device) k = true := by
        rw [HierarchicalConfig.privateLayered, containsKey_pyUpdate, containsKey_pyUpdate,
          containsKey_pyUpdate, hdef]
        simp
      rw [pyGet_pyUpdate_of_right _ _ _ hWFpriv hcont, HierarchicalConfig.privateLayered,
        pyGet_pyUpdate_of_right _ _ _ (hWF .privateDevice) hdef]

/-- A concrete configuration used to witness the layering theorem: the key
`a` is defined only in the role layer. -/
def hcW : HierarchicalConfig :=
  { public_common := [("c", Value.num 0)]
    public_roles := [("r", [("a", Value.str "x")])]
    public_sites := []
    private_common := [("p", Value.num 1)]
    private_roles := []
    private_sites := [] }

/-- A concrete device used to witness the layering theorem. -/
def devW : ConfigDevice :=
  { fqdn := "device1.example.com"
    metadata := [("role", Value.str "r"), ("site", Value.str "s")]
    config := []
    privateConfig := [] }

/-- Witness for C4: on the concrete catalog `hcW`/`devW` the key `a` is
defined only in the role layer and resolves to the role-layer value. -/
theorem config_layering_precedence_witness :
    pyGet (pyUpdate (hcW.publicLayered devW) (hcW.privateLayered devW)) "a"
      = some (Value.str "x") := by
  have h := config_layering_precedence hcW devW .role "a"
    (pyUpdate (hcW.publicLayered devW) (hcW.privateLayered devW))
    (by intro other; cases other <;> decide)
    (by decide)
    (by
      intro other hne
      cases other
      · rfl
      · exact absurd rfl hne
      · rfl
      · rfl
      · rfl
      · rfl
      · rfl
      · rfl
      · rfl)
    rfl
  rw [h]
  rfl

/-- A concrete configuration with the key `p` in both the public and the
private common layer. -/
def hcW2 : HierarchicalConfig :=
  { public_common := [("p", Value.num 0)]
    public_roles := []
    public_sites := []
    private_common := [("p", Value.num 1)]
    private_roles := []
    private_sites := [] }

/-- Witness for C3: on the concrete colliding configuration `hcW2`,
`get` fails with an error. -/
theorem config_public_private_disjointness_witness :
    ∃ e, hcW2.get devW = Except.error e := by
  exact (config_public_private_disjointness hcW2 devW).1.mp ⟨"p", by decide, by decide⟩

/-!
Embedding of `devices.py`.  `Device` is the NamedTuple
`(fqdn, role, site, config, private)` (again `private` becomes
`privateConfig`).  The `_roles`/`_sites` indexes are `defaultdict(list)`
mappings from a name to the devices appended while iterating the input in
insertion order; they are embedded extensionally as functions from names to
device lists (an absent key and an empty list are indistinguishable for
`role()`/`site()`, which return `[]` for an absent key).  The fqdn-keyed
`data` dictionary keeps its association-list embedding because the glob
branch of `query` iterates it in insertion order.  The shell-style
`fnmatch.fnmatch` primitive is Python standard library, not part of this
repository, and is taken as an opaque `matcher` argument. -/

/-- Generic association-list membership for non-`Value` payloads. -/
def keyMem {α : Type} (m : List (String × α)) (k : String) : Bool := m.any (fun p => p.1 == k)

/-- Generic association-list lookup for non-`Value` payloads. -/
def keyGet {α : Type} (m : List (String × α)) (k : String) : Option α :=
  (m.find? (fun p => p.1 == k)).map (·.2)

/-- Generic association-list assignment for non-`Value` payloads. -/
def keySet {α : Type} (m : List (String × α)) (k : String) (v : α) : List (String × α) :=
  if keyMem m k then m.map (fun p => if p.1 == k then (k, v) else p) else m ++ [(k, v)]

/-- The `Device` NamedTuple of `devices.py`. -/
structure Device where
  fqdn : String
  role : String
  site : String
  config : Dict
  privateConfig : Dict

/-- One value of the `devices` constructor argument: the entry for one fqdn,
with its `role`, `site` and optional `config` sub-dictionary. -/
structure DeviceData where
  role : String
  site : String
  config : Dict

/-- The `Devices` collection: the fqdn-keyed dictionary plus the role and
site indexes built at construction. -/
structure Devices where
  data : List (String × Device)
  roles : String → List Device
  sites : String → List Device

/-- The device built for one input entry:
`Device(fqdn, data['role'], data['site'], data.get('config', {}), private_config.get(fqdn, {}))`. -/
def mkDevice (private_config : List (String × Dict)) (entry : String × DeviceData) : Device :=
  { fqdn := entry.1
    role := entry.2.role
    site := entry.2.site
    config := entry.2.config
    privateConfig := (keyGet private_config entry.1).getD [] }

/-- One iteration of the `Devices.__init__` loop: store the constructed
device under its fqdn and append it to the role and site indexes. -/
def Devices.initStep (private_config : List (String × Dict)) (acc : Devices)
    (entry : String × DeviceData) : Devices :=
  let device := mkDevice private_config entry
  { data := keySet acc.data entry.1 device
    roles := fun name => if device.role == name then acc.roles name ++ [device]
      else acc.roles name
    sites := fun name => if device.site == name then acc.sites name ++ [device]
      else acc.sites name }

/-- `Devices.__init__`: iterate the input in insertion order, starting from
the empty collection. -/
def Devices.init (devices : List (String × DeviceData))
    (private_config : List (String × Dict)) : Devices :=
  devices.foldl (Devices.initStep private_config) ⟨[], fun _ => [], fun _ => []⟩

/-- `Devices.role`: all devices with the given role (empty for an absent
role). -/
def Devices.role (ds : Devices) (name : String) : List Device := ds.roles name

/-- `Devices.site`: all devices within the given site (empty for an absent
site). -/
def Devices.site (ds : Devices) (name : String) : List Device := ds.sites name

/-- `Devices.query`: a string containing `:` is split at the first colon
(`query_string.split(':', 1)`, re-implemented at character level because
the standard-library split is an external primitive) into an index name —
only `role` and `site` are recognized, anything else is a `HomerError` —
and a lookup value; any other string is a shell glob matched against the
fqdns in insertion order. -/
def Devices.query (ds : Devices) (matcher : String → String → Bool) (query_string : String) :
    Except String (List Device) :=
  if query_string.data.any (fun c => c == ':') then
    if String.mk (query_string.data.takeWhile (fun c => !(c == ':'))) = "role" then
      .ok (ds.role (String.mk ((query_string.data.dropWhile (fun c => !(c == ':'))).tail)))
    else if String.mk (query_string.data.takeWhile (fun c => !(c == ':'))) = "site" then
      .ok (ds.site (String.mk ((query_string.data.dropWhile (fun c => !(c == ':'))).tail)))
    else
      .error ("Unknown query prefix: "
        ++ String.mk (query_string.data.takeWhile (fun c => !(c == ':'))))
  else
    .ok ((ds.data.filter (fun kv => matcher kv.1 query_string)).map (·.2))

/-- The role index after folding any suffix of the input: the accumulator's
entry followed by the matching devices of that suffix in insertion order. -/
theorem Devices.roles_foldl (devices : List (String × DeviceData))
    (private_config : List (String × Dict)) (acc : Devices) (name : String) :
    (devices.foldl (Devices.initStep private_config) acc).roles name =
      acc.roles name ++
        ((devices.map (mkDevice private_config)).filter (fun d => d.role == name)) := by
  induction devices generalizing acc with
  | nil => simp
  | cons entry rest ih =>
    simp only [List.foldl_cons, List.map_cons, List.filter_cons]
    rw [ih]
    by_cases h : (mkDevice private_config entry).role = name
    · rw [if_pos (by simp [h])]
      have : (Devices.initStep private_config acc entry).roles name =
          acc.roles name ++ [mkDevice private_config entry] := by
        unfold Devices.initStep
        simp only
        rw [if_pos (by simp [h])]
      rw [this, List.append_assoc]
      rfl
    · rw [if_neg (by simp [h])]
      have : (Devices.initStep private_config acc entry).roles name = acc.roles name := by
        unfold Devices.initStep
        simp only
        rw [if_neg (by simp [h])]
      rw [this]

/-- The site index after folding any suffix of the input, mirroring the
role index. -/
theorem Devices.sites_foldl (devices : List (String × DeviceData))
    (private_config : List (String × Dict)) (acc : Devices) (name : String) :
    (devices.foldl (Devices.initStep private_config) acc).sites name =
      acc.sites name ++
        ((devices.map (mkDevice private_config)).filter (fun d => d.site == name)) := by
  induction devices generalizing acc with
  | nil => simp
  | cons entry rest ih =>
    simp only [List.foldl_cons, List.map_cons, List.filter_cons]
    rw [ih]
    by_cases h : (mkDevice private_config entry).site = name
    · rw [if_pos (by simp [h])]
      have : (Devices.initStep private_config acc entry).sites name =
          acc.sites name ++ [mkDevice private_config entry] := by
        unfold Devices.initStep
        simp only
        rw [if_pos (by simp [h])]
      rw [this, List.append_assoc]
      rfl
    · rw [if_neg (by simp [h])]
      have : (Devices.initStep private_config acc entry).sites name = acc.sites name := by
        unfold Devices.initStep
        simp only
        rw [if_neg (by simp [h])]
      rw [this]

/-- The constructed catalog's role index is the insertion-order filter of
the input by role. -/
theorem Devices.role_init (devices : List (String × DeviceData))
    (private_config : List (String × Dict)) (name : String) :
    (Devices.init devices private_config).role name =
      (devices.map (mkDevice private_config)).filter (fun d => d.role == name) := by
  unfold Devices.init Devices.role
  rw [Devices.roles_foldl]
  rfl

/-- The constructed catalog's site index is the insertion-order filter of
the input by site. -/
theorem Devices.site_init (devices : List (String × DeviceData))
    (private_config : List (String × Dict)) (name : String) :
    (Devices.init devices private_config).site name =
      (devices.map (mkDevice private_config)).filter (fun d => d.site == name) := by
  unfold Devices.init Devices.site
  rw [Devices.sites_foldl]
  rfl

/-- A key outside an association list's key set is not a member. -/
theorem keyMem_eq_false {α : Type} (m : List (String × α)) (k : String)
    (h : k ∉ m.map Prod.fst) : keyMem m k = false := by
  rw [Bool.eq_false_iff]
  intro hmem
  rcases List.any_eq_true.mp hmem with ⟨p, hp, hk⟩
  exact h (List.mem_map.mpr ⟨p, hp, by simpa using hk⟩)

/-- Assigning a fresh key appends the pair at the end. -/
theorem keySet_of_not_mem {α : Type} (m : List (String × α)) (k : String) (v : α)
    (h : keyMem m k = false) : keySet m k v = m ++ [(k, v)] := by
  rw [keySet, if_neg (by rw [h]; simp)]

/-- The fqdn-keyed `data` dictionary after folding a suffix whose fqdns are
distinct and fresh for the accumulator: the accumulator's entries followed
by one entry per input item, in insertion order. -/
theorem Devices.data_foldl (devices : List (String × DeviceData))
    (private_config : List (String × Dict)) (acc : Devices)
    (hdisj : ∀ f, f ∈ devices.map Prod.fst → keyMem acc.data f = false)
    (hnodup : (devices.map Prod.fst).Nodup) :
    (devices.foldl (Devices.initStep private_config) acc).data =
      acc.data ++ devices.map (fun e => (e.1, mkDevice private_config e)) := by
  induction devices generalizing acc with
  | nil => simp
  | cons entry rest ih =>
    simp only [List.map_cons, List.nodup_cons] at hnodup
    simp only [List.foldl_cons, List.map_cons]
    have hstep : (Devices.initStep private_config acc entry).data =
        acc.data ++ [(entry.1, mkDevice private_config entry)] := by
      unfold Devices.initStep
      simp only
      exact keySet_of_not_mem _ _ _ (hdisj entry.1 (by simp))
    have hd : ∀ f, f ∈ rest.map Prod.fst →
        keyMem (Devices.initStep private_config acc entry).data f = false := by
      intro f hf
      rw [hstep]
      have h1 : keyMem acc.data f = false := hdisj f (by simp [hf])
      have h2 : ¬ entry.1 = f := fun he => hnodup.1 (he ▸ hf)
      unfold keyMem at h1 ⊢
      rw [List.any_append, h1]
      simp [h2]
    rw [ih _ hd hnodup.2, hstep, List.append_assoc]
    rfl

/-- For a catalog input with distinct fqdns, the `data` dictionary holds one
entry per input item in insertion order. -/
theorem Devices.data_init (devices : List (String × DeviceData))
    (private_config : List (String × Dict))
    (hnodup : (devices.map Prod.fst).Nodup) :
    (Devices.init devices private_config).data =
      devices.map (fun e => (e.1, mkDevice private_config e)) := by
  unfold Devices.init
  rw [Devices.data_foldl devices private_config ⟨[], fun _ => [], fun _ => []⟩
    (fun f _ => rfl) hnodup]
  rfl

/-- Filtering the fqdn-keyed entries by an fqdn predicate and projecting the
devices is filtering the input and constructing the devices. -/
theorem Devices.data_filter_map (devices : List (String × DeviceData))
    (private_config : List (String × Dict)) (matcher : String → String → Bool)
    (q : String) :
    ((devices.map (fun e => (e.1, mkDevice private_config e))).filter
        (fun kv => matcher kv.1 q)).map (fun kv => kv.2) =
      (devices.filter (fun e => matcher e.1 q)).map (mkDevice private_config) := by
  induction devices with
  | nil => rfl
  | cons entry rest ih =>
    simp only [List.map_cons, List.filter_cons]
    by_cases h : matcher entry.1 q <;> simp [h, ih]

/-- A `role:` query resolves through the role index: the characters before
the first colon spell `role` and everything after it is the looked-up name. -/
theorem Devices.query_role_eq (ds : Devices) (matcher : String → String → Bool)
    (name : String) :
    ds.query matcher ("role:" ++ name) = .ok (ds.role name) := by
  have hdata : ("role:" ++ name).data = 'r' :: 'o' :: 'l' :: 'e' :: ':' :: name.data := rfl
  rw [Devices.query, hdata]
  rw [if_pos (List.any_eq_true.mpr ⟨':', by simp, by decide⟩)]
  have htake : ('r' :: 'o' :: 'l' :: 'e' :: ':' :: name.data).takeWhile
      (fun c => !(c == ':')) = ['r', 'o', 'l', 'e'] := by
    rw [List.takeWhile_cons, if_pos (by decide), List.takeWhile_cons, if_pos (by decide),
      List.takeWhile_cons, if_pos (by decide), List.takeWhile_cons, if_pos (by decide),
      List.takeWhile_cons, if_neg (by decide)]
  have hdrop : ('r' :: 'o' :: 'l' :: 'e' :: ':' :: name.data).dropWhile
      (fun c => !(c == ':')) = ':' :: name.data := by
    rw [List.dropWhile_cons, if_pos (by decide), List.dropWhile_cons, if_pos (by decide),
      List.dropWhile_cons, if_pos (by decide), List.dropWhile_cons, if_pos (by decide),
      List.dropWhile_cons, if_neg (by decide)]
  rw [htake, hdrop]
  rw [if_pos (by decide)]
  rfl

/-- A `site:` query resolves through the site index. -/
theorem Devices.query_site_eq (ds : Devices) (matcher : String → String → Bool)
    (name : String) :
    ds.query matcher ("site:" ++ name) = .ok (ds.site name) := by
  have hdata : ("site:" ++ name).data = 's' :: 'i' :: 't' :: 'e' :: ':' :: name.data := rfl
  rw [Devices.query, hdata]
  rw [if_pos (List.any_eq_true.mpr ⟨':', by simp, by decide⟩)]
  have htake : ('s' :: 'i' :: 't' :: 'e' :: ':' :: name.data).takeWhile
      (fun c => !(c == ':')) = ['s', 'i', 't', 'e'] := by
    rw [List.takeWhile_cons, if_pos (by decide), List.takeWhile_cons, if_pos (by decide),
      List.takeWhile_cons, if_pos (by decide), List.takeWhile_cons, if_pos (by decide),
      List.takeWhile_cons, if_neg (by decide)]
  have hdrop : ('s' :: 'i' :: 't' :: 'e' :: ':' :: name.data).dropWhile
      (fun c => !(c == ':')) = ':' :: name.data := by
    rw [List.dropWhile_cons, if_pos (by decide), List.dropWhile_cons, if_pos (by decide),
      List.dropWhile_cons, if_pos (by decide), List.dropWhile_cons, if_pos (by decide),
      List.dropWhile_cons, if_neg (by decide)]
  rw [htake, hdrop]
  rw [if_neg (by decide), if_pos (by decide)]
  rfl

/-- A colon-free query is a glob query over the fqdn-keyed entries in
insertion order. -/
theorem Devices.query_glob_eq (ds : Devices) (matcher : String → String → Bool)
    (q : String) (hq : q.data.any (fun c => c == ':') = false) :
    ds.query matcher q = .ok ((ds.data.filter (fun kv => matcher kv.1 q)).map (·.2)) := by
  rw [Devices.query, if_neg (by rw [hq]; simp)]

/-- C9 (amended): every result-returning branch of `Devices.query` — the
`role:` selector, the `site:` selector and the colon-free glob selector —
returns the matching devices in catalog insertion order, not sorted by
fqdn (the role/site indexes append devices while the constructor iterates
its input, and the glob branch scans the fqdn dictionary in insertion
order); and for catalogs built from the same entries in a different
insertion order (with distinct fqdns, as the catalog invariant requires),
the *set* of devices each selector returns is unchanged. -/
theorem devices_query_insertion_order (devices devices' : List (String × DeviceData))
    (private_config : List (String × Dict)) (matcher : String → String → Bool)
    (name q : String)
    (hperm : devices.Perm devices')
    (hnodup : (devices.map Prod.fst).Nodup)
    (hq : q.data.any (fun c => c == ':') = false) :
    ((Devices.init devices private_config).query matcher ("role:" ++ name) =
      .ok ((devices.map (mkDevice private_config)).filter (fun d => d.role == name))) ∧
    ((Devices.init devices private_config).query matcher ("site:" ++ name) =
      .ok ((devices.map (mkDevice private_config)).filter (fun d => d.site == name))) ∧
    ((Devices.init devices private_config).query matcher q =
      .ok ((devices.filter (fun e => matcher e.1 q)).map (mkDevice private_config))) ∧
    (∀ d l l',
      (Devices.init devices private_config).query matcher ("role:" ++ name) = .ok l →
      (Devices.init devices' private_config).query matcher ("role:" ++ name) = .ok l' →
      (d ∈ l ↔ d ∈ l')) ∧
    (∀ d l l',
      (Devices.init devices private_config).query matcher ("site:" ++ name) = .ok l →
      (Devices.init devices' private_config).query matcher ("site:" ++ name) = .ok l' →
      (d ∈ l ↔ d ∈ l')) ∧
    (∀ d l l',
      (Devices.init devices private_config).query matcher q = .ok l →
      (Devices.init devices' private_config).query matcher q = .ok l' →
      (d ∈ l ↔ d ∈ l')) := by
  have hnodup' : (devices'.map Prod.fst).Nodup := ((hperm.map Prod.fst).nodup_iff).mp hnodup
  have hrole : ∀ ds : List (String × DeviceData),
      (Devices.init ds private_config).query matcher ("role:" ++ name) =
        .ok ((ds.map (mkDevice private_config)).filter (fun d => d.role == name)) := by
    intro ds
    rw [Devices.query_role_eq, Devices.role_init]
  have hsite : ∀ ds : List (String × DeviceData),
      (Devices.init ds private_config).query matcher ("site:" ++ name) =
        .ok ((ds.map (mkDevice private_config)).filter (fun d => d.site == name)) := by
    intro ds
    rw [Devices.query_site_eq, Devices.site_init]
  have hglob : ∀ ds : List (String × DeviceData), (ds.map Prod.fst).Nodup →
      (Devices.init ds private_config).query matcher q =
        .ok ((ds.filter (fun e => matcher e.1 q)).map (mkDevice private_config)) := by
    intro ds hnd
    rw [Devices.query_glob_eq _ _ _ hq, Devices.data_init ds private_config hnd,
      Devices.data_filter_map]
  refine ⟨hrole devices, hsite devices, hglob devices hnodup, ?_, ?_, ?_⟩
  · intro d l l' h h'
    rw [hrole devices] at h
    rw [hrole devices'] at h'
    injection h with h
    injection h' with h'
    subst h
    subst h'
    exact ((hperm.map (mkDevice private_config)).filter (fun d => d.role == name)).mem_iff
  · intro d l l' h h'
    rw [hsite devices] at h
    rw [hsite devices'] at h'
    injection h with h
    injection h' with h'
    subst h
    subst h'
    exact ((hperm.map (mkDevice private_config)).filter (fun d => d.site == name)).mem_iff
  · intro d l l' h h'
    rw [hglob devices hnodup] at h
    rw [hglob devices' hnodup'] at h'
    injection h with h
    injection h' with h'
    subst h
    subst h'
    exact ((hperm.filter (fun e => matcher e.1 q)).map (mkDevice private_config)).mem_iff

/-- Witness for C9 (amended): a two-fqdn catalog inserted in reverse fqdn
order and its reversal, exercised on a role query, a site query, a glob
query, and the glob set-invariance between the two insertion orders. -/
theorem devices_query_insertion_order_witness :
    (Devices.init [("b.example.com", ⟨"r", "s", []⟩), ("a.example.com", ⟨"r", "s2", []⟩)]
        []).query (fun _ _ => true) ("role:" ++ "r") =
      .ok [⟨"b.example.com", "r", "s", [], []⟩, ⟨"a.example.com", "r", "s2", [], []⟩] ∧
    (Devices.init [("b.example.com", ⟨"r", "s", []⟩), ("a.example.com", ⟨"r", "s2", []⟩)]
        []).query (fun _ _ => true) ("site:" ++ "s2") =
      .ok [⟨"a.example.com", "r", "s2", [], []⟩] ∧
    (Devices.init [("b.example.com", ⟨"r", "s", []⟩), ("a.example.com", ⟨"r", "s2", []⟩)]
        []).query (fun _ _ => true) "*" =
      .ok [⟨"b.example.com", "r", "s", [], []⟩, ⟨"a.example.com", "r", "s2", [], []⟩] ∧
    ((⟨"b.example.com", "r", "s", [], []⟩ : Device) ∈
        [(⟨"b.example.com", "r", "s", [], []⟩ : Device), ⟨"a.example.com", "r", "s2", [], []⟩] ↔
      (⟨"b.example.com", "r", "s", [], []⟩ : Device) ∈
        [(⟨"a.example.com", "r", "s2", [], []⟩ : Device), ⟨"b.example.com", "r", "s", [], []⟩]) := by
  have h1 := devices_query_insertion_order
    [("b.example.com", ⟨"r", "s", []⟩), ("a.example.com", ⟨"r", "s2", []⟩)]
    [("a.example.com", ⟨"r", "s2", []⟩), ("b.example.com", ⟨"r", "s", []⟩)]
    [] (fun _ _ => true) "r" "*" (List.Perm.swap _ _ _) (by decide) (by decide)
  have h2 := devices_query_insertion_order
    [("b.example.com", ⟨"r", "s", []⟩), ("a.example.com", ⟨"r", "s2", []⟩)]
    [("a.example.com", ⟨"r", "s2", []⟩), ("b.example.com", ⟨"r", "s", []⟩)]
    [] (fun _ _ => true) "s2" "*" (List.Perm.swap _ _ _) (by decide) (by decide)
  refine ⟨?_, ?_, ?_, ?_⟩
  · rw [h1.1]
    rfl
  · rw [h2.2.1]
    rfl
  · rw [h1.2.2.1]
    rfl
  · exact h1.2.2.2.2.2 ⟨"b.example.com", "r", "s", [], []⟩
      [⟨"b.example.com", "r", "s", [], []⟩, ⟨"a.example.com", "r", "s2", [], []⟩]
      [⟨"a.example.com", "r", "s2", [], []⟩, ⟨"b.example.com", "r", "s", [], []⟩]
      (by rw [h1.2.2.1]; rfl) rfl

/-- Counterexample for C9: the catalog built from the insertion order
`b.example.com`, `a.example.com` answers the query `role:r` with the devices
in insertion order, which is not sorted by fqdn. -/
theorem devices_query_sorted_counterexample :
    (Devices.init [("b.example.com", ⟨"r", "s", []⟩), ("a.example.com", ⟨"r", "s", []⟩)]
        []).query (fun f pat => f == pat) "role:r" =
      Except.ok [⟨"b.example.com", "r", "s", [], []⟩, ⟨"a.example.com", "r", "s", [], []⟩] ∧
    ¬ List.Chain' (fun a b : Device => a.fqdn ≤ b.fqdn)
      [⟨"b.example.com", "r", "s", [], []⟩, ⟨"a.example.com", "r", "s", [], []⟩] := by
  constructor
  · rfl
  · intro hchain
    have hle : ("b.example.com" : String) ≤ "a.example.com" := (List.chain'_cons.mp hchain).1
    rw [String.le_iff_toList_le] at hle
    exact absurd hle (by decide)

/-!
Embedding of the retry loop of `Homer._execute` (`__init__.py`): for each
device, `for attempt in range(1, TIMEOUT_ATTEMPTS + 1): try: callback(...);
break; except (HomerTimeoutError, HomerConnectError): log` with a `for/else`
clause recording the device as failed with an empty-string diff when every
attempt raised a retryable error.  One callback invocation is abstracted by
its observable outcome: a normal return `(success, diff)`, a
`HomerTimeoutError`, a `HomerConnectError`, or any other exception (which
the loop does not catch, so it propagates out of `_execute`). -/

/-- `TIMEOUT_ATTEMPTS = 3`. -/
def TIMEOUT_ATTEMPTS : Nat := 3

/-- The observable outcome of one callback invocation. -/
inductive CallbackOutcome where
  | ok (success : Bool) (diff : Option String)
  | timeoutError
  | connectError
  | otherError
deriving DecidableEq

/-- The two exception kinds caught by the retry loop. -/
def retryable : CallbackOutcome → Bool
  | .timeoutError => true
  | .connectError => true
  | _ => false

/-- What the attempt loop leaves behind for one device: a recorded
`(device_success, device_diff)` pair, or an uncaught exception propagating
out of `_execute`. -/
inductive AttemptResult where
  | recorded (success : Bool) (diff : Option String)
  | propagated
deriving DecidableEq

/-- The attempt loop from a given attempt number with a given number of
attempts remaining; exhausting the attempts lands in the `for/else` clause
which records `(False, '')`. -/
def attemptLoopFrom (outcomes : Nat → CallbackOutcome) (attempt : Nat) :
    Nat → AttemptResult
  | 0 => .recorded false (some "")
  | remaining + 1 =>
    match outcomes attempt with
    | .ok s d => .recorded s d
    | .timeoutError => attemptLoopFrom outcomes (attempt + 1) remaining
    | .connectError => attemptLoopFrom outcomes (attempt + 1) remaining
    | .otherError => .propagated

/-- How many callback invocations the loop performs. -/
def invocationsFrom (outcomes : Nat → CallbackOutcome) (attempt : Nat) : Nat → Nat
  | 0 => 0
  | remaining + 1 =>
    match outcomes attempt with
    | .timeoutError => invocationsFrom outcomes (attempt + 1) remaining + 1
    | .connectError => invocationsFrom outcomes (attempt + 1) remaining + 1
    | _ => 1

/-- The per-device attempt loop of `_execute`, attempts numbered from 1. -/
def executeAttempts (outcomes : Nat → CallbackOutcome) : AttemptResult :=
  attemptLoopFrom outcomes 1 TIMEOUT_ATTEMPTS

/-- The number of callback invocations `_execute` performs for one device. -/
def executeInvocations (outcomes : Nat → CallbackOutcome) : Nat :=
  invocationsFrom outcomes 1 TIMEOUT_ATTEMPTS

/-- C1: the transport callback is invoked at most 3 times per device; a
further attempt follows an invocation only when it raised a timeout or
connect error; any other exception ends that device's loop at that very
attempt with no further invocation (propagating out instead of a retry);
and when all 3 attempts raise retryable errors the device is recorded as
failed with an empty-string diff. -/
theorem execute_retry_policy (outcomes : Nat → CallbackOutcome) :
    executeInvocations outcomes ≤ TIMEOUT_ATTEMPTS ∧
    (∀ i, 1 ≤ i → i + 1 ≤ executeInvocations outcomes → retryable (outcomes i) = true) ∧
    (∀ i, 1 ≤ i → i ≤ TIMEOUT_ATTEMPTS → outcomes i = .otherError →
      (∀ j, 1 ≤ j → j < i → retryable (outcomes j) = true) →
      executeAttempts outcomes = .propagated ∧ executeInvocations outcomes = i) ∧
    ((∀ i, 1 ≤ i → i ≤ TIMEOUT_ATTEMPTS → retryable (outcomes i) = true) →
      executeAttempts outcomes = .recorded false (some "") ∧
      executeInvocations outcomes = TIMEOUT_ATTEMPTS) := by
  refine ⟨?_, ?_, ?_, ?_⟩
  · cases h1 : outcomes 1 <;> cases h2 : outcomes 2 <;> cases h3 : outcomes 3 <;>
      simp [executeInvocations, invocationsFrom, TIMEOUT_ATTEMPTS, h1, h2, h3]
  · intro i hi1 hi2
    cases h1 : outcomes 1 <;> cases h2 : outcomes 2 <;> cases h3 : outcomes 3 <;>
      simp only [executeInvocations, invocationsFrom, TIMEOUT_ATTEMPTS, h1, h2, h3] at hi2 <;>
      first
        | omega
        | (have hi : i = 1 := by omega
           subst hi
           simp [retryable, h1])
        | (have hi : i = 1 ∨ i = 2 := by omega
           rcases hi with hi | hi <;> subst hi <;> simp [retryable, h1, h2])
  · intro i hi1 hi3 hother hprev
    have hcases : i = 1 ∨ i = 2 ∨ i = 3 := by
      rw [TIMEOUT_ATTEMPTS] at hi3
      omega
    rcases hcases with hi | hi | hi
    · subst hi
      simp [executeAttempts, executeInvocations, attemptLoopFrom, invocationsFrom,
        TIMEOUT_ATTEMPTS, hother]
    · subst hi
      have h1 := hprev 1 (by omega) (by omega)
      cases h1' : outcomes 1 <;> rw [h1'] at h1 <;> simp only [retryable, Bool.false_eq_true] at h1 <;>
        simp [executeAttempts, executeInvocations, attemptLoopFrom, invocationsFrom,
          TIMEOUT_ATTEMPTS, h1', hother]
    · subst hi
      have h1 := hprev 1 (by omega) (by omega)
      have h2 := hprev 2 (by omega) (by omega)
      cases h1' : outcomes 1 <;> rw [h1'] at h1 <;> simp only [retryable, Bool.false_eq_true] at h1 <;>
        cases h2' : outcomes 2 <;> rw [h2'] at h2 <;> simp only [retryable, Bool.false_eq_true] at h2 <;>
        simp [executeAttempts, executeInvocations, attemptLoopFrom, invocationsFrom,
          TIMEOUT_ATTEMPTS, h1', h2', hother]
  · intro hall
    have h1 := hall 1 (by omega) (by decide)
    have h2 := hall 2 (by omega) (by decide)
    have h3 := hall 3 (by omega) (by decide)
    cases h1' : outcomes 1 <;> rw [h1'] at h1 <;> simp only [retryable, Bool.false_eq_true] at h1 <;>
      cases h2' : outcomes 2 <;> rw [h2'] at h2 <;> simp only [retryable, Bool.false_eq_true] at h2 <;>
      cases h3' : outcomes 3 <;> rw [h3'] at h3 <;> simp only [retryable, Bool.false_eq_true] at h3 <;>
      simp [executeAttempts, executeInvocations, attemptLoopFrom, invocationsFrom,
        TIMEOUT_ATTEMPTS, h1', h2', h3']

/-- Witness for C1: a callback that always raises `HomerTimeoutError` is
invoked exactly 3 times and the device is recorded failed with diff `''`;
a callback that raises a non-retryable error on attempt 1 is invoked once. -/
theorem execute_retry_policy_witness :
    (executeAttempts (fun _ => .timeoutError) = .recorded false (some "") ∧
      executeInvocations (fun _ => .timeoutError) = TIMEOUT_ATTEMPTS) ∧
    (executeAttempts (fun _ => .otherError) = .propagated ∧
      executeInvocations (fun _ => .otherError) = 1) := by
  constructor
  · exact (execute_retry_policy (fun _ => .timeoutError)).2.2.2
      (fun i _ _ => by simp [retryable])
  · exact (execute_retry_policy (fun _ => .otherError)).2.2.1 1 (by omega)
      (by decide) rfl (fun j hj1 hj2 => by omega)

/-!
Embedding of the exit-status derivation (`Homer._parse_results` and the tail
of `Homer.diff` in `__init__.py`).  `_execute` returns the success record —
the `successes[True]`/`successes[False]` fqdn lists — and the
diff-to-fqdn-list mapping; `diff` scans the latter setting `has_diff` for
any diff that is neither `None` (a failed device) nor the empty string. -/

/-- `DIFF_EXIT_CODE = 99`. -/
def DIFF_EXIT_CODE : Nat := 99

/-- The success record built by `_execute`: the fqdns under the `True` key
and under the `False` key. -/
structure RunResults where
  succeeded : List String
  failed : List String

/-- `Homer._parse_results`: 1 when `successes[False]` is non-empty, else 0. -/
def parse_results (results : RunResults) : Nat :=
  if results.failed.isEmpty then 0 else 1

/-- The `has_diff` loop of `Homer.diff` over the `(diff, fqdn list)` items:
`None` prints `# Failed`, the empty string prints `# No diff`, anything else
sets `has_diff`. -/
def hasDiff (diffs : List (Option String × List String)) : Bool :=
  diffs.foldl
    (fun acc entry =>
      match entry.1 with
      | none => acc
      | some s => if s.isEmpty then acc else true)
    false

/-- The exit status of `Homer.diff`: `_parse_results`, upgraded to
`DIFF_EXIT_CODE` when it is 0 and some non-empty diff exists. -/
def diffExitCode (results : RunResults) (diffs : List (Option String × List String)) : Nat :=
  let ret := parse_results results
  if ret = 0 ∧ hasDiff diffs then DIFF_EXIT_CODE else ret

/-- The `has_diff` fold is an `any` over the diff keys. -/
theorem hasDiff_eq_any (diffs : List (Option String × List String)) :
    hasDiff diffs = diffs.any (fun p =>
      match p.1 with
      | none => false
      | some s => !s.isEmpty) := by
  have aux : ∀ (l : List (Option String × List String)) (acc : Bool),
      l.foldl (fun acc entry =>
        match entry.1 with
        | none => acc
        | some s => if s.isEmpty then acc else true) acc =
      (acc || l.any (fun p =>
        match p.1 with
        | none => false
        | some s => !s.isEmpty)) := by
    intro l
    induction l with
    | nil => simp
    | cons p t ih =>
      intro acc
      simp only [List.foldl_cons, List.any_cons]
      rw [ih]
      rcases p with ⟨d, fqdns⟩
      cases d with
      | none => simp
      | some s =>
        by_cases hs : s.isEmpty <;> simp [hs, Bool.or_comm, Bool.or_assoc, Bool.or_left_comm]
  rw [hasDiff, aux]
  simp

/-- C5: the `diff` operation exits 1 when at least one device failed; 99
when no device failed and some device produced a non-empty (and non-`None`)
diff; and 0 when no device failed and every diff is empty. -/
theorem diff_exit_code_mapping (results : RunResults)
    (diffs : List (Option String × List String)) :
    (results.failed ≠ [] → diffExitCode results diffs = 1) ∧
    (results.failed = [] → (∃ p ∈ diffs, ∃ s, p.1 = some s ∧ s ≠ "") →
      diffExitCode results diffs = DIFF_EXIT_CODE) ∧
    (results.failed = [] → (∀ p ∈ diffs, ∀ s, p.1 = some s → s = "") →
      diffExitCode results diffs = 0) := by
  refine ⟨?_, ?_, ?_⟩
  · intro hfail
    have h : results.failed.isEmpty = false := by simpa using hfail
    simp [diffExitCode, parse_results, h]
  · intro hfail hsome
    have hhd : hasDiff diffs = true := by
      rw [hasDiff_eq_any, List.any_eq_true]
      rcases hsome with ⟨p, hmem, s, hps, hs⟩
      refine ⟨p, hmem, ?_⟩
      have hb : s.isEmpty = false := by
        rw [Bool.eq_false_iff]
        exact fun h => hs ((String.isEmpty_iff s).mp h)
      simp [hps, hb]
    simp [diffExitCode, parse_results, hfail, hhd]
  · intro hfail hall
    have hhd : hasDiff diffs = false := by
      rw [hasDiff_eq_any]
      rw [Bool.eq_false_iff]
      intro hany
      rcases List.any_eq_true.mp hany with ⟨p, hmem, hp⟩
      rcases hcase : p.1 with - | s
      · rw [hcase] at hp
        cases hp
      · rw [hcase] at hp
        have hs : s = "" := hall p hmem s hcase
        subst hs
        simp only at hp
        exact absurd hp (by decide)
    simp [diffExitCode, parse_results, hfail, hhd]

/-- Witness for C5: a failed device gives exit 1; two clean devices sharing
one non-empty diff give exit 99; a clean empty-diff run gives exit 0. -/
theorem diff_exit_code_mapping_witness :
    diffExitCode ⟨[], ["d1.example.com"]⟩ [(none, ["d1.example.com"])] = 1 ∧
    diffExitCode ⟨["d1.example.com", "d2.example.com"], []⟩
      [(some "+ x", ["d1.example.com", "d2.example.com"])] = DIFF_EXIT_CODE ∧
    diffExitCode ⟨["d1.example.com"], []⟩ [(some "", ["d1.example.com"])] = 0 := by
  refine ⟨?_, ?_, ?_⟩
  · exact (diff_exit_code_mapping ⟨[], ["d1.example.com"]⟩ [(none, ["d1.example.com"])]).1
      (by simp)
  · exact (diff_exit_code_mapping ⟨["d1.example.com", "d2.example.com"], []⟩
      [(some "+ x", ["d1.example.com", "d2.example.com"])]).2.1 rfl
      ⟨(some "+ x", ["d1.example.com", "d2.example.com"]), by simp, "+ x", rfl, by simp⟩
  · exact (diff_exit_code_mapping ⟨["d1.example.com"], []⟩ [(some "", ["d1.example.com"])]).2.2
      rfl (by
        intro p hmem s hs
        simp at hmem
        rw [hmem] at hs
        simp at hs
        exact hs.symm)

/-!
Embedding of `interactive.py`.  `ask_approval` is a function of whether
stdout is a TTY and of the stream of answers the operator would type; the
`input()` calls of the two-round loop read `inputs 0` and `inputs 1`. -/

/-- The `ApprovalStatus` enum; the string value of each member is the
answer that selects it. -/
inductive ApprovalStatus where
  | APPROVE_SINGLE
  | REJECT_SINGLE
  | APPROVE_ALL
  | REJECT_ALL
deriving DecidableEq

/-- The `valid_answers` mapping `{status.value: status}`: `yes`, `no`,
`all` and `none` are the only recognized answers. -/
def parseAnswer (answer : String) : Option ApprovalStatus :=
  if answer = "yes" then some .APPROVE_SINGLE
  else if answer = "no" then some .REJECT_SINGLE
  else if answer = "all" then some .APPROVE_ALL
  else if answer = "none" then some .REJECT_ALL
  else none

/-- `ask_approval`: `HomerError` when stdout is not a TTY; otherwise up to
two `input()` rounds, returning the first valid answer and failing with
`HomerError` when both answers are invalid. -/
def ask_approval (tty : Bool) (inputs : Nat → String) : Except String ApprovalStatus :=
  if !tty then .error "Not in a TTY, unable to ask for confirmation"
  else
    match parseAnswer (inputs 0) with
    | some status => .ok status
    | none =>
      match parseAnswer (inputs 1) with
      | some status => .ok status
      | none => .error "Too many invalid answers, commit aborted"

/-- How many `input()` reads `ask_approval` performs. -/
def askReads (tty : Bool) (inputs : Nat → String) : Nat :=
  if !tty then 0
  else
    match parseAnswer (inputs 0) with
    | some _ => 1
    | none => 2

/-- C10: `ask_approval` raises `HomerError` immediately without a TTY; it
reads at most two answers; exactly the four strings `yes`/`no`/`all`/`none`
are accepted, mapped to their `ApprovalStatus`; after two invalid answers it
raises `HomerError`; and every successful return comes from one of the two
read answers through that mapping, so it never returns anything outside the
four statuses. -/
theorem ask_approval_contract (tty : Bool) (inputs : Nat → String) :
    (tty = false → ask_approval tty inputs =
      Except.error "Not in a TTY, unable to ask for confirmation") ∧
    askReads tty inputs ≤ 2 ∧
    (parseAnswer "yes" = some .APPROVE_SINGLE ∧ parseAnswer "no" = some .REJECT_SINGLE ∧
      parseAnswer "all" = some .APPROVE_ALL ∧ parseAnswer "none" = some .REJECT_ALL ∧
      (∀ a status, parseAnswer a = some status →
        a = "yes" ∨ a = "no" ∨ a = "all" ∨ a = "none")) ∧
    (tty = true → parseAnswer (inputs 0) = none → parseAnswer (inputs 1) = none →
      ask_approval tty inputs = Except.error "Too many invalid answers, commit aborted") ∧
    (∀ status, ask_approval tty inputs = Except.ok status →
      parseAnswer (inputs 0) = some status ∨
        (parseAnswer (inputs 0) = none ∧ parseAnswer (inputs 1) = some status)) := by
  refine ⟨?_, ?_, ?_, ?_, ?_⟩
  · intro h
    subst h
    rfl
  · rw [askReads]
    cases tty
    · simp
    · rw [if_neg (by decide)]
      cases parseAnswer (inputs 0) <;> simp
  · refine ⟨rfl, rfl, rfl, rfl, ?_⟩
    intro a status h
    rw [parseAnswer] at h
    by_cases h1 : a = "yes"
    · exact Or.inl h1
    · rw [if_neg h1] at h
      by_cases h2 : a = "no"
      · exact Or.inr (Or.inl h2)
      · rw [if_neg h2] at h
        by_cases h3 : a = "all"
        · exact Or.inr (Or.inr (Or.inl h3))
        · rw [if_neg h3] at h
          by_cases h4 : a = "none"
          · exact Or.inr (Or.inr (Or.inr h4))
          · rw [if_neg h4] at h
            cases h
  · intro htty h0 h1
    subst htty
    rw [ask_approval]
    rw [if_neg (by decide)]
    rw [h0, h1]
  · intro status h
    rw [ask_approval] at h
    cases tty
    · rw [if_pos (by decide)] at h
      cases h
    · rw [if_neg (by decide)] at h
      cases h0 : parseAnswer (inputs 0) with
      | some s0 =>
        rw [h0] at h
        injection h with h'
        subst h'
        exact Or.inl rfl
      | none =>
        rw [h0] at h
        cases h1 : parseAnswer (inputs 1) with
        | some s1 =>
          rw [h1] at h
          injection h with h'
          subst h'
          exact Or.inr ⟨rfl, rfl⟩
        | none =>
          rw [h1] at h
          cases h

/-- Witness for C10: no TTY fails immediately; two invalid answers fail;
a valid second answer is returned with its mapped status. -/
theorem ask_approval_contract_witness :
    ask_approval false (fun _ => "yes") =
      Except.error "Not in a TTY, unable to ask for confirmation" ∧
    ask_approval true (fun _ => "oops") =
      Except.error "Too many invalid answers, commit aborted" ∧
    (∀ status, ask_approval true (fun i => if i = 0 then "oops" else "none") =
      Except.ok status →
      parseAnswer "oops" = some status ∨
        (parseAnswer "oops" = none ∧ parseAnswer "none" = some status)) := by
  refine ⟨(ask_approval_contract false (fun _ => "yes")).1 rfl, ?_, ?_⟩
  · exact (ask_approval_contract true (fun _ => "oops")).2.2.2.1 rfl rfl rfl
  · exact (ask_approval_contract true (fun i => if i = 0 then "oops" else "none")).2.2.2.2

/-!
Embedding of `diff.py` (`DiffStore`) and of `color_diff`
(`transports/__init__.py`).  The two string sets of the store are embedded
as lists (with `contains` as the membership test); the singleton pattern of
the Python class is immaterial to the statements below, which pass the
store state explicitly.  The string primitives used by `color_diff`
(`str.splitlines`, prefix test, last-character test) are re-implemented at
character level because the standard-library string functions are external
primitives. -/

/-- The `DiffStore` state: the approved and the rejected diff sets. -/
structure DiffStore where
  approved : List String
  rejected : List String

/-- `DiffStore.status`: `False` for a rejected diff, `True` for an approved
one, `None` for an unknown one. -/
def DiffStore.status (store : DiffStore) (diff : String) : Option Bool :=
  if store.rejected.contains diff then some false
  else if store.approved.contains diff then some true
  else none

/-- `DiffStore.approve`: no-op when already approved, `HomerDiffError` when
already rejected, otherwise record the approval. -/
def DiffStore.approve (store : DiffStore) (diff : String) : Except String DiffStore :=
  if store.approved.contains diff then .ok store
  else if store.rejected.contains diff then
    .error "Diff already rejected for all devices, hence it cannot be approved."
  else .ok { store with approved := store.approved ++ [diff] }

/-- `DiffStore.reject`: no-op when already rejected, `HomerDiffError` when
already approved, otherwise record the rejection. -/
def DiffStore.reject (store : DiffStore) (diff : String) : Except String DiffStore :=
  if store.rejected.contains diff then .ok store
  else if store.approved.contains diff then
    .error "Diff already approved for all devices, hence it cannot be rejected."
  else .ok { store with rejected := store.rejected ++ [diff] }

/-- `str.splitlines` restricted to `\n` separators (device diffs are
`\n`-separated), at character level. -/
def splitOnNewline : List Char → List (List Char)
  | [] => [[]]
  | c :: rest =>
    if c = '\n' then [] :: splitOnNewline rest
    else
      match splitOnNewline rest with
      | [] => [[c]]
      | group :: groups => (c :: group) :: groups

/-- `diff.splitlines()`: split on `\n`, no trailing empty entry. -/
def pySplitlines (s : String) : List String :=
  if s.data.isEmpty then []
  else
    let parts := (splitOnNewline s.data).map String.mk
    if s.data.getLast? = some '\n' then parts.dropLast else parts

/-- `DIFF_ADDED_CODE = 32`. -/
def DIFF_ADDED_CODE : Nat := 32

/-- `DIFF_REMOVED_CODE = 31`. -/
def DIFF_REMOVED_CODE : Nat := 31

/-- `DIFF_MOVED_CODE = 33`. -/
def DIFF_MOVED_CODE : Nat := 33

/-- The per-line color code of `color_diff`, by first character. -/
def diffLineCode (line : String) : Nat :=
  match line.data.head? with
  | some '+' => DIFF_ADDED_CODE
  | some '-' => DIFF_REMOVED_CODE
  | some '!' => DIFF_MOVED_CODE
  | _ => 0

/-- One line of `color_diff`: wrap in the ANSI escape when the code is
non-zero. -/
def colorLine (line : String) : String :=
  let code := diffLineCode line
  if code ≠ 0 then "\x1b[" ++ toString code ++ "m" ++ line ++ "\x1b[39m" else line

/-- `color_diff`: color every line, join with `\n`, and re-add the final
trailing newline when the input had one. -/
def color_diff (diff : String) : String :=
  let lines := (pySplitlines diff).map colorLine
  let colored_diff := String.intercalate "\n" lines
  if diff ≠ "" ∧ diff.data.getLast? = some '\n' then colored_diff ++ "\n" else colored_diff

/-!
Embedding of the two transport session variants (`transports/junos.py` and
`transports/json_rpc.py`).  A session run is modelled by the sequence of
device-facing actions it performs plus its outcome; the remote device's
responses to each RPC are inputs of the model.  The lock/load/diff
round-trips inside `_prepare` are summarized by the prepare result (its
returned diff text or the exception kind it raised); `junosPrepare` and
`jsonRpcPrepare` model the successful value, which colors the raw
device-reported diff with `color_diff` before returning it. -/

/-- The device-facing actions of a session that the claims observe. -/
inductive TransportAction where
  | askApproval
  | commitRpc
  | commitCheckRpc
  | rollback
  | setRpc
  | confirmRpc
  | validateRpc
deriving DecidableEq

/-- Whether an action mutates the device's live (running) configuration:
only the junos two-stage commit and the JSON-RPC set/confirm requests do;
commit-check, validate, the diff request and a rollback of the staged
candidate do not. -/
def mutatesRunningConfig : TransportAction → Bool
  | .commitRpc => true
  | .setRpc => true
  | .confirmRpc => true
  | _ => false

/-- The outcome of one transport `commit` call as `_device_commit` observes
it. -/
inductive CommitResult where
  | ok
  | timeoutError
  | homerError
  | abortError
  | connectError
  | otherError
deriving DecidableEq

/-- How `_prepare` of the junos transport can fail: a `ConfigLoadError` is
re-raised as is; any other exception triggers a rollback inside `_prepare`
and is then re-raised. -/
inductive PrepareError where
  | loadError
  | genericError
deriving DecidableEq

/-- The device's response to one junos RPC (`cu.commit`/`cu.commit_check`). -/
inductive RpcResult where
  | ok
  | rpcTimeout
  | commitError
  | genericError
deriving DecidableEq

/-- The device's response to one JSON-RPC POST issued through
`send_jsonrpc_request`: success, `requests.Timeout`, another
`requests.RequestException`, or a `HomerError` raised by
`send_jsonrpc_request` itself (non-OK response or error payload). -/
inductive HttpResult where
  | ok
  | httpTimeout
  | requestError
  | httpError
deriving DecidableEq

/-- The observable behavior of one transport `commit` call: the actions it
performed, its outcome, and the diff-store state it leaves behind. -/
structure SessionOutcome where
  actions : List TransportAction
  result : CommitResult
  store : DiffStore

/-- `junosPrepare`: the diff returned by a successful junos `_prepare` —
`cu.diff()` (with `None` replaced by `''`) passed through `color_diff`. -/
def junosPrepare (rawDiff : Option String) : String :=
  color_diff (rawDiff.getD "")

/-- `jsonRpcPrepare`: the diff returned by a successful JSON-RPC `_prepare`
— `color_diff` of the first result entry when present, `''` otherwise. -/
def jsonRpcPrepare (response : Option String) : String :=
  match response with
  | some payload => color_diff payload
  | none => ""

/-- The final `try` block of the junos `commit`: `cu.commit(confirm=2, ...)`
only when the diff is non-empty, then `cu.commit_check`; `RpcTimeoutError`
maps to `HomerTimeoutError` and `CommitError` to `HomerError`. -/
def junosCommitFinal (diff : String) (commitResp checkResp : RpcResult) (store : DiffStore) :
    SessionOutcome :=
  if diff ≠ "" then
    match commitResp with
    | .ok =>
      match checkResp with
      | .ok => ⟨[.commitRpc, .commitCheckRpc], .ok, store⟩
      | .rpcTimeout => ⟨[.commitRpc, .commitCheckRpc], .timeoutError, store⟩
      | .commitError => ⟨[.commitRpc, .commitCheckRpc], .homerError, store⟩
      | .genericError => ⟨[.commitRpc, .commitCheckRpc], .otherError, store⟩
    | .rpcTimeout => ⟨[.commitRpc], .timeoutError, store⟩
    | .commitError => ⟨[.commitRpc], .homerError, store⟩
    | .genericError => ⟨[.commitRpc], .otherError, store⟩
  else
    match checkResp with
    | .ok => ⟨[.commitCheckRpc], .ok, store⟩
    | .rpcTimeout => ⟨[.commitCheckRpc], .timeoutError, store⟩
    | .commitError => ⟨[.commitCheckRpc], .homerError, store⟩
    | .genericError => ⟨[.commitCheckRpc], .otherError, store⟩

/-- Prefix an approval prompt to a session outcome. -/
def SessionOutcome.afterAsk (outcome : SessionOutcome) : SessionOutcome :=
  ⟨.askApproval :: outcome.actions, outcome.result, outcome.store⟩

/-- The junos `ConnectedDevice.commit`: skip entirely on an empty diff
unless retrying (then still commit-check); otherwise consult the
`DiffStore` — approved proceeds, rejected rolls back and returns, unknown
prompts, with every `HomerError` of the approval block (rejections, prompt
failures, store conflicts) triggering a rollback before re-raising. -/
def junosCommit (prep : Except PrepareError String) (is_retry : Bool) (store : DiffStore)
    (tty : Bool) (inputs : Nat → String) (commitResp checkResp : RpcResult) :
    SessionOutcome :=
  match prep with
  | .error .loadError => ⟨[], .otherError, store⟩
  | .error .genericError => ⟨[.rollback], .otherError, store⟩
  | .ok diff =>
    if diff = "" ∧ ¬ is_retry then ⟨[], .ok, store⟩
    else if diff = "" then junosCommitFinal diff commitResp checkResp store
    else
      match store.status diff with
      | some true => junosCommitFinal diff commitResp checkResp store
      | some false => ⟨[.rollback], .ok, store⟩
      | none =>
        match ask_approval tty inputs with
        | .error _ => ⟨[.askApproval, .rollback], .homerError, store⟩
        | .ok .REJECT_SINGLE => ⟨[.askApproval, .rollback], .homerError, store⟩
        | .ok .REJECT_ALL =>
          match store.reject diff with
          | .ok store' => ⟨[.askApproval, .rollback], .homerError, store'⟩
          | .error _ => ⟨[.askApproval, .rollback], .homerError, store⟩
        | .ok .APPROVE_ALL =>
          match store.approve diff with
          | .ok store' => (junosCommitFinal diff commitResp checkResp store').afterAsk
          | .error _ => ⟨[.askApproval, .rollback], .homerError, store⟩
        | .ok .APPROVE_SINGLE => (junosCommitFinal diff commitResp checkResp store).afterAsk

/-- The final `try` block of the JSON-RPC `commit`: when the diff is
non-empty, the `set` request with its confirm-timeout then the
`confirmed-accept` request; `requests.Timeout` maps to `HomerTimeoutError`,
other `requests.RequestException`s to `HomerConnectError`, and a
`HomerError` from `send_jsonrpc_request` propagates as is.  Nothing at all
is sent when the diff is empty. -/
def jsonRpcCommitFinal (diff : String) (setResp confirmResp : HttpResult) (store : DiffStore) :
    SessionOutcome :=
  if diff ≠ "" then
    match setResp with
    | .ok =>
      match confirmResp with
      | .ok => ⟨[.setRpc, .confirmRpc], .ok, store⟩
      | .httpTimeout => ⟨[.setRpc, .confirmRpc], .timeoutError, store⟩
      | .requestError => ⟨[.setRpc, .confirmRpc], .connectError, store⟩
      | .httpError => ⟨[.setRpc, .confirmRpc], .homerError, store⟩
    | .httpTimeout => ⟨[.setRpc], .timeoutError, store⟩
    | .requestError => ⟨[.setRpc], .connectError, store⟩
    | .httpError => ⟨[.setRpc], .homerError, store⟩
  else ⟨[], .ok, store⟩

/-- How the JSON-RPC `_prepare` can fail: a `HomerError` raised by
`send_jsonrpc_request`, or a raw `requests` exception from the POST (which
is not a `HomerError` at all). -/
inductive JsonPrepError where
  | homerErr
  | requestExc
deriving DecidableEq

/-- The JSON-RPC `ConnectedDevice.commit`: same empty-diff/approval
structure as the junos variant, but the transport is stateless — there is
no rollback, every rejection path plainly returns, and an empty diff on a
retry sends nothing. -/
def jsonRpcCommit (prep : Except JsonPrepError String) (is_retry : Bool) (store : DiffStore)
    (tty : Bool) (inputs : Nat → String) (setResp confirmResp : HttpResult) :
    SessionOutcome :=
  match prep with
  | .error .homerErr => ⟨[], .homerError, store⟩
  | .error .requestExc => ⟨[], .otherError, store⟩
  | .ok diff =>
    if diff = "" ∧ ¬ is_retry then ⟨[], .ok, store⟩
    else if diff = "" then jsonRpcCommitFinal diff setResp confirmResp store
    else
      match store.status diff with
      | some true => jsonRpcCommitFinal diff setResp confirmResp store
      | some false => ⟨[], .ok, store⟩
      | none =>
        match ask_approval tty inputs with
        | .error _ => ⟨[.askApproval], .homerError, store⟩
        | .ok .REJECT_SINGLE => ⟨[.askApproval], .ok, store⟩
        | .ok .REJECT_ALL =>
          match store.reject diff with
          | .ok store' => ⟨[.askApproval], .ok, store'⟩
          | .error _ => ⟨[.askApproval], .homerError, store⟩
        | .ok .APPROVE_ALL =>
          match store.approve diff with
          | .ok store' => (jsonRpcCommitFinal diff setResp confirmResp store').afterAsk
          | .error _ => ⟨[.askApproval], .homerError, store⟩
        | .ok .APPROVE_SINGLE => (jsonRpcCommitFinal diff setResp confirmResp store).afterAsk

/-- `Homer._device_commit`: a normal transport return records the device as
succeeded; `HomerTimeoutError` is re-raised for the retry loop;
`HomerAbortError` logs a warning and everything else logs an error — both
record the device as failed with diff `''`. -/
def deviceCommit (result : CommitResult) : Except Unit (Bool × String) :=
  match result with
  | .ok => .ok (true, "")
  | .timeoutError => .error ()
  | _ => .ok (false, "")

/-- The junos `ConnectedDevice.commit_check`: a failed prepare rolls back
and returns `(False, None)`; an empty diff rolls back and returns
`(True, '')` without any commit-check; a non-empty diff runs
`cu.commit_check` (success only on a clean response) and always rolls back
in the `finally` block. -/
def junosCommitCheck (prep : Except PrepareError String) (checkResp : RpcResult) :
    List TransportAction × (Bool × Option String) :=
  match prep with
  | .error .loadError => ([.rollback], (false, none))
  | .error .genericError => ([.rollback, .rollback], (false, none))
  | .ok diff =>
    if diff = "" then ([.rollback], (true, some diff))
    else
      match checkResp with
      | .ok => ([.commitCheckRpc, .rollback], (true, some diff))
      | .rpcTimeout => ([.commitCheckRpc, .rollback], (false, some diff))
      | .commitError => ([.commitCheckRpc, .rollback], (false, some diff))
      | .genericError => ([.commitCheckRpc, .rollback], (false, some diff))

/-- The device's response to the JSON-RPC `validate` request (sent with
`raise_on_error=False`): an OK response with or without an `error` payload,
a non-OK response (`HomerError`), or a raw `requests` exception — the last
two propagate out of `commit_check`. -/
inductive ValidateResult where
  | okClean
  | okWithError
  | httpNotOk
  | requestExc
deriving DecidableEq

/-- The JSON-RPC `ConnectedDevice.commit_check`: a failed prepare returns
`(False, None)`; an empty diff returns `(True, '')` without any request;
a non-empty diff sends one `validate` request, succeeding exactly when the
response carries no error payload. -/
def jsonRpcCommitCheck (prep : Except JsonPrepError String) (validateResp : ValidateResult) :
    List TransportAction × Except Unit (Bool × Option String) :=
  match prep with
  | .error _ => ([], .ok (false, none))
  | .ok diff =>
    if diff = "" then ([], .ok (true, some diff))
    else
      match validateResp with
      | .okClean => ([.validateRpc], .ok (true, some diff))
      | .okWithError => ([.validateRpc], .ok (false, some diff))
      | .httpNotOk => ([.validateRpc], .error ())
      | .requestExc => ([.validateRpc], .error ())

/-- C2 (amended): a commit with an empty computed diff and `is_retry=False`
performs no approval prompt and no device request at all on either
transport, returning success; with `is_retry=True`, the junos transport
performs exactly one commit-check (and nothing else), while the JSON-RPC
transport performs no request at all and returns success. -/
theorem commit_empty_diff_behavior (store : DiffStore) (tty : Bool) (inputs : Nat → String)
    (commitResp checkResp : RpcResult) (setResp confirmResp : HttpResult) :
    junosCommit (.ok "") false store tty inputs commitResp checkResp =
      ⟨[], .ok, store⟩ ∧
    (junosCommit (.ok "") true store tty inputs commitResp checkResp).actions =
      [.commitCheckRpc] ∧
    jsonRpcCommit (.ok "") false store tty inputs setResp confirmResp =
      ⟨[], .ok, store⟩ ∧
    jsonRpcCommit (.ok "") true store tty inputs setResp confirmResp =
      ⟨[], .ok, store⟩ := by
  refine ⟨rfl, ?_, rfl, ?_⟩
  · cases checkResp <;> rfl
  · rfl

/-- Counterexample for C2: on the JSON-RPC transport a commit with an empty
diff and `is_retry=True` issues no request whatsoever — in particular no
commit-check/validate — and returns success. -/
theorem commit_empty_diff_retry_counterexample :
    (jsonRpcCommit (.ok "") true ⟨[], []⟩ true (fun _ => "yes") .ok .ok).actions = [] ∧
    (jsonRpcCommit (.ok "") true ⟨[], []⟩ true (fun _ => "yes") .ok .ok).result =
      .ok := by
  exact ⟨rfl, rfl⟩

/-- A `None` store status means the diff is in neither set. -/
theorem DiffStore.status_none_iff (store : DiffStore) (diff : String) :
    store.status diff = none ↔
      store.rejected.contains diff = false ∧ store.approved.contains diff = false := by
  rw [DiffStore.status]
  by_cases hr : store.rejected.contains diff = true
  · rw [if_pos hr]
    constructor
    · intro h
      cases h
    · rintro ⟨h1, -⟩
      rw [hr] at h1
      cases h1
  · rw [if_neg hr]
    by_cases ha : store.approved.contains diff = true
    · rw [if_pos ha]
      constructor
      · intro h
        cases h
      · rintro ⟨-, h2⟩
        rw [ha] at h2
        cases h2
    · rw [if_neg ha]
      constructor
      · intro _
        exact ⟨Bool.eq_false_iff.mpr hr, Bool.eq_false_iff.mpr ha⟩
      · intro _
        rfl

/-- Rejecting a diff the store knows nothing about records the rejection. -/
theorem DiffStore.reject_of_status_none (store : DiffStore) (diff : String)
    (h : store.status diff = none) :
    store.reject diff = .ok ⟨store.approved, store.rejected ++ [diff]⟩ := by
  rcases (DiffStore.status_none_iff store diff).mp h with ⟨hr, ha⟩
  rw [DiffStore.reject, if_neg (by rw [hr]; simp), if_neg (by rw [ha]; simp)]

/-- A first answer recognized by `valid_answers` ends the prompt with it. -/
theorem ask_approval_first_answer (inputs : Nat → String) (status : ApprovalStatus)
    (h : parseAnswer (inputs 0) = some status) :
    ask_approval true inputs = .ok status := by
  rw [ask_approval, if_neg (by decide), h]

/-- C7 (amended): when the device's diff is unknown to the store and the
operator answers reject-this-only or reject-all, the junos transport raises
`HomerError` after rolling back, which `_device_commit` catches and records
the device as failed — while the JSON-RPC transport plainly returns, so the
device is recorded as succeeded; a reject-all answer records the rejection
in the store; and a rejection already recorded in the store makes both
transports return normally, recording the device as succeeded. -/
theorem commit_rejection_recording (diff : String) (store : DiffStore)
    (inputs : Nat → String) (commitResp checkResp : RpcResult)
    (setResp confirmResp : HttpResult) (hne : diff ≠ "") :
    (store.status diff = none → parseAnswer (inputs 0) = some .REJECT_SINGLE →
      deviceCommit (junosCommit (.ok diff) false store true inputs commitResp
        checkResp).result = .ok (false, "") ∧
      deviceCommit (jsonRpcCommit (.ok diff) false store true inputs setResp
        confirmResp).result = .ok (true, "")) ∧
    (store.status diff = none → parseAnswer (inputs 0) = some .REJECT_ALL →
      deviceCommit (junosCommit (.ok diff) false store true inputs commitResp
        checkResp).result = .ok (false, "") ∧
      (junosCommit (.ok diff) false store true inputs commitResp
        checkResp).store.status diff = some false ∧
      deviceCommit (jsonRpcCommit (.ok diff) false store true inputs setResp
        confirmResp).result = .ok (true, "")) ∧
    (store.status diff = some false →
      deviceCommit (junosCommit (.ok diff) false store true inputs commitResp
        checkResp).result = .ok (true, "") ∧
      deviceCommit (jsonRpcCommit (.ok diff) false store true inputs setResp
        confirmResp).result = .ok (true, "")) := by
  refine ⟨?_, ?_, ?_⟩
  · intro hstatus hanswer
    have hask := ask_approval_first_answer inputs .REJECT_SINGLE hanswer
    constructor
    · simp only [junosCommit]
      rw [if_neg (by simp [hne]), if_neg hne, hstatus, hask]
      rfl
    · simp only [jsonRpcCommit]
      rw [if_neg (by simp [hne]), if_neg hne, hstatus, hask]
      rfl
  · intro hstatus hanswer
    have hask := ask_approval_first_answer inputs .REJECT_ALL hanswer
    have hrej := DiffStore.reject_of_status_none store diff hstatus
    refine ⟨?_, ?_, ?_⟩
    · simp only [junosCommit]
      rw [if_neg (by simp [hne]), if_neg hne, hstatus, hask, hrej]
      rfl
    · simp only [junosCommit]
      rw [if_neg (by simp [hne]), if_neg hne, hstatus, hask, hrej]
      show (⟨store.approved, store.rejected ++ [diff]⟩ : DiffStore).status diff = some false
      rw [DiffStore.status, if_pos (by simp)]
    · simp only [jsonRpcCommit]
      rw [if_neg (by simp [hne]), if_neg hne, hstatus, hask, hrej]
      rfl
  · intro hstatus
    constructor
    · simp only [junosCommit]
      rw [if_neg (by simp [hne]), if_neg hne, hstatus]
      rfl
    · simp only [jsonRpcCommit]
      rw [if_neg (by simp [hne]), if_neg hne, hstatus]
      rfl

/-- Witness for C7 (amended): on a concrete diff, the concrete rejection
paths of both transports produce the recorded results stated above. -/
theorem commit_rejection_recording_witness :
    deviceCommit (junosCommit (.ok "+a") false ⟨[], []⟩ true (fun _ => "no") .ok
      .ok).result = .ok (false, "") ∧
    (junosCommit (.ok "+a") false ⟨[], []⟩ true (fun _ => "none") .ok
      .ok).store.status "+a" = some false ∧
    deviceCommit (jsonRpcCommit (.ok "+a") false ⟨[], ["+a"]⟩ true (fun _ => "no") .ok
      .ok).result = .ok (true, "") := by
  refine ⟨?_, ?_, ?_⟩
  · exact ((commit_rejection_recording "+a" ⟨[], []⟩ (fun _ => "no") .ok .ok .ok .ok
      (by decide)).1 rfl rfl).1
  · exact ((commit_rejection_recording "+a" ⟨[], []⟩ (fun _ => "none") .ok .ok .ok .ok
      (by decide)).2.1 rfl rfl).2.1
  · exact ((commit_rejection_recording "+a" ⟨[], ["+a"]⟩ (fun _ => "no") .ok .ok .ok .ok
      (by decide)).2.2 rfl).2

/-- Counterexample for C7: a diff already rejected in the store makes the
junos commit return normally, and an interactive reject-this-only on the
JSON-RPC transport returns normally too — in both cases `_device_commit`
records the device as *succeeded*, not failed. -/
theorem commit_rejection_counterexample :
    deviceCommit (junosCommit (.ok "+a") false ⟨[], ["+a"]⟩ true (fun _ => "yes") .ok
      .ok).result = Except.ok (true, "") ∧
    deviceCommit (jsonRpcCommit (.ok "+a") false ⟨[], []⟩ true (fun _ => "no") .ok
      .ok).result = Except.ok (true, "") := by
  exact ⟨rfl, rfl⟩

/-- C6 (amended): both transports return `color_diff` of the raw
device-reported diff from `_prepare`, and that *colored* text is the string
the `DiffStore` is keyed by; since `color_diff` is a deterministic function
applied by both transports, byte-identical raw diffs still produce
byte-identical store keys, so a recorded approval for the colored text
suppresses the prompt on both transports. -/
theorem diff_store_key_colored (raw : String) (store : DiffStore) (inputs : Nat → String)
    (commitResp checkResp : RpcResult) (setResp confirmResp : HttpResult)
    (happroved : store.status (color_diff raw) = some true)
    (hne : color_diff raw ≠ "") :
    junosPrepare (some raw) = color_diff raw ∧
    jsonRpcPrepare (some raw) = color_diff raw ∧
    (junosCommit (.ok (junosPrepare (some raw))) false store true inputs commitResp
      checkResp).actions.contains .askApproval = false ∧
    (jsonRpcCommit (.ok (jsonRpcPrepare (some raw))) false store true inputs setResp
      confirmResp).actions.contains .askApproval = false := by
  refine ⟨rfl, rfl, ?_, ?_⟩
  · have hstep : junosCommit (.ok (junosPrepare (some raw))) false store true inputs
        commitResp checkResp = junosCommitFinal (color_diff raw) commitResp checkResp store := by
      simp only [junosCommit, junosPrepare, Option.getD]
      rw [if_neg (by simp [hne]), if_neg hne, happroved]
    rw [hstep, junosCommitFinal.eq_def, if_pos hne]
    cases commitResp <;> cases checkResp <;> rfl
  · have hstep : jsonRpcCommit (.ok (jsonRpcPrepare (some raw))) false store true inputs
        setResp confirmResp = jsonRpcCommitFinal (color_diff raw) setResp confirmResp store := by
      simp only [jsonRpcCommit, jsonRpcPrepare]
      rw [if_neg (by simp [hne]), if_neg hne, happroved]
    rw [hstep, jsonRpcCommitFinal.eq_def, if_pos hne]
    cases setResp <;> cases confirmResp <;> rfl

/-- Witness for C6 (amended): with `color_diff "+a"` recorded as approved,
a device whose raw diff is `+a` commits without any prompt. -/
theorem diff_store_key_colored_witness :
    (junosCommit (.ok (junosPrepare (some "+a"))) false ⟨[color_diff "+a"], []⟩ true
      (fun _ => "yes") .ok .ok).actions.contains .askApproval = false := by
  exact (diff_store_key_colored "+a" ⟨[color_diff "+a"], []⟩ (fun _ => "yes")
    .ok .ok .ok .ok (by decide) (by decide)).2.2.1

/-- Counterexample for C6: the junos `_prepare` returns the ANSI-colored
text, not the raw diff, and the store is consulted with that colored text —
a rejection recorded under the *uncolored* text `+a` is not found, so the
device still prompts for approval. -/
theorem diff_store_key_counterexample :
    junosPrepare (some "+a") ≠ "+a" ∧
    (junosCommit (.ok (junosPrepare (some "+a"))) false ⟨[], ["+a"]⟩ true
      (fun _ => "yes") .ok .ok).actions.contains .askApproval = true := by
  constructor
  · decide
  · rfl

/-- C8 (amended): the junos check-only path always rolls back the staged
candidate and never issues the two-stage commit, but runs the commit-check
RPC exactly when `_prepare` returned a non-empty diff — not on an empty
one; the JSON-RPC check-only path sends the `validate` request exactly when
the prepared diff is non-empty and sends nothing else; neither path
performs any action that mutates the live configuration. -/
theorem commit_check_behavior_junos_ok (d : String) (checkResp : RpcResult) :
    junosCommitCheck (.ok d) checkResp =
      if d = "" then ([.rollback], (true, some d))
      else
        match checkResp with
        | .ok => ([.commitCheckRpc, .rollback], (true, some d))
        | .rpcTimeout => ([.commitCheckRpc, .rollback], (false, some d))
        | .commitError => ([.commitCheckRpc, .rollback], (false, some d))
        | .genericError => ([.commitCheckRpc, .rollback], (false, some d)) := rfl

theorem commit_check_behavior_json_ok (d : String) (validateResp : ValidateResult) :
    jsonRpcCommitCheck (.ok d) validateResp =
      if d = "" then ([], .ok (true, some d))
      else
        match validateResp with
        | .okClean => ([.validateRpc], .ok (true, some d))
        | .okWithError => ([.validateRpc], .ok (false, some d))
        | .httpNotOk => ([.validateRpc], .error ())
        | .requestExc => ([.validateRpc], .error ()) := rfl

theorem commit_check_behavior (prep : Except PrepareError String) (checkResp : RpcResult)
    (jprep : Except JsonPrepError String) (validateResp : ValidateResult) :
    (junosCommitCheck prep checkResp).1.contains .rollback = true ∧
    ((junosCommitCheck prep checkResp).1.contains .commitCheckRpc = true ↔
      ∃ d, prep = .ok d ∧ d ≠ "") ∧
    (∀ a ∈ (junosCommitCheck prep checkResp).1, mutatesRunningConfig a = false) ∧
    ((jsonRpcCommitCheck jprep validateResp).1.contains .validateRpc = true ↔
      ∃ d, jprep = .ok d ∧ d ≠ "") ∧
    (∀ a ∈ (jsonRpcCommitCheck jprep validateResp).1, mutatesRunningConfig a = false) := by
  refine ⟨?_, ?_, ?_, ?_, ?_⟩
  · rcases prep with pe | d
    · cases pe <;> rfl
    · rw [commit_check_behavior_junos_ok]
      by_cases hd : d = ""
      · rw [if_pos hd]
        rfl
      · rw [if_neg hd]
        cases checkResp <;> rfl
  · rcases prep with pe | d
    · cases pe
      · refine ⟨fun h => absurd (show ([TransportAction.rollback] :
          List TransportAction).contains .commitCheckRpc = true from h) (by decide), ?_⟩
        rintro ⟨d, hd, -⟩
        cases hd
      · refine ⟨fun h => absurd (show ([TransportAction.rollback, TransportAction.rollback] :
          List TransportAction).contains .commitCheckRpc = true from h) (by decide), ?_⟩
        rintro ⟨d, hd, -⟩
        cases hd
    · rw [commit_check_behavior_junos_ok]
      by_cases hd : d = ""
      · rw [if_pos hd]
        constructor
        · intro h
          exact absurd (show ([TransportAction.rollback] :
            List TransportAction).contains .commitCheckRpc = true from h) (by decide)
        · rintro ⟨d', hd', hne⟩
          injection hd' with h'
          subst h'
          exact absurd hd hne
      · rw [if_neg hd]
        cases checkResp <;> exact ⟨fun _ => ⟨d, rfl, hd⟩, fun _ => rfl⟩
  · rcases prep with pe | d
    · cases pe
      · intro a ha
        have ha' : a ∈ [TransportAction.rollback] := ha
        simp at ha'
        rw [ha']
        rfl
      · intro a ha
        have ha' : a ∈ [TransportAction.rollback, TransportAction.rollback] := ha
        simp at ha'
        rw [ha']
        rfl
    · intro a ha
      rw [commit_check_behavior_junos_ok] at ha
      by_cases hd : d = ""
      · rw [if_pos hd] at ha
        have ha' : a ∈ [TransportAction.rollback] := ha
        simp at ha'
        rw [ha']
        rfl
      · rw [if_neg hd] at ha
        cases checkResp <;>
          (have ha' : a ∈ [TransportAction.commitCheckRpc, TransportAction.rollback] := ha
           simp at ha'
           rcases ha' with h | h <;> rw [h] <;> rfl)
  · rcases jprep with pe | d
    · cases pe <;>
        (refine ⟨fun h => absurd (show (([] : List TransportAction)).contains
          .validateRpc = true from h) (by decide), ?_⟩
         rintro ⟨d, hd, -⟩
         cases hd)
    · rw [commit_check_behavior_json_ok]
      by_cases hd : d = ""
      · rw [if_pos hd]
        constructor
        · intro h
          exact absurd (show (([] : List TransportAction)).contains
            .validateRpc = true from h) (by decide)
        · rintro ⟨d', hd', hne⟩
          injection hd' with h'
          subst h'
          exact absurd hd hne
      · rw [if_neg hd]
        cases validateResp <;> exact ⟨fun _ => ⟨d, rfl, hd⟩, fun _ => rfl⟩
  · rcases jprep with pe | d
    · cases pe <;>
        exact fun a ha => absurd (show a ∈ ([] : List TransportAction) from ha) (by simp)
    · intro a ha
      rw [commit_check_behavior_json_ok] at ha
      by_cases hd : d = ""
      · rw [if_pos hd] at ha
        exact absurd (show a ∈ ([] : List TransportAction) from ha) (by simp)
      · rw [if_neg hd] at ha
        cases validateResp <;>
          (have ha' : a ∈ [TransportAction.validateRpc] := ha
           simp at ha'
           rw [ha']
           rfl)

/-- Witness for C8 (amended): concrete non-empty-diff check-only runs on
both transports, showing the commit-check/validate request, the junos
rollback, and the absence of mutating actions. -/
theorem commit_check_behavior_witness :
    (junosCommitCheck (.ok "+a") .ok).1.contains .rollback = true ∧
    (junosCommitCheck (.ok "+a") .ok).1.contains .commitCheckRpc = true ∧
    (jsonRpcCommitCheck (.ok "+a") .okClean).1.contains .validateRpc = true := by
  have h := commit_check_behavior (.ok "+a") .ok (.ok "+a") .okClean
  exact ⟨h.1, h.2.1.mpr ⟨"+a", rfl, by decide⟩, h.2.2.2.1.mpr ⟨"+a", rfl, by decide⟩⟩

/-- Counterexample for C8: with an empty prepared diff the junos check-only
path only rolls back — no commit-check RPC is issued — and the JSON-RPC
check-only path issues nothing at all. -/
theorem commit_check_empty_diff_counterexample :
    junosCommitCheck (.ok "") .ok = ([.rollback], (true, some "")) ∧
    jsonRpcCommitCheck (.ok "") .okClean = ([], .ok (true, some "")) := by
  exact ⟨rfl, rfl⟩

end Homer
